import Mathlib

/-!
Verification of the snowflake cellular-automaton engine (engine.py).

The engine is embedded shallowly: Python floats are modelled as exact
rationals, the flat cell list is modelled as a total function from the
flat integer index (y * size + x, as produced by `_cell_index`), and the
three sequential per-phase loops of `CrystalLattice.step` are modelled as
left folds that update one cell at a time, exactly as the source mutates
cells in place while iterating.  Randomness (`random.random() >= 0.5` in
`noise_step`) is modelled by a boolean oracle indexed by cell index, and
by iteration for multi-step runs.
-/

/-- Python's built-in `round` (round half to even) followed by `int`,
modelled on exact rationals. -/
def pyRound (q : ℚ) : Int :=
  let f : Int := ⌊q⌋
  let frac : ℚ := q - (f : ℚ)
  if frac < 1/2 then f
  else if 1/2 < frac then f + 1
  else if f % 2 = 0 then f else f + 1

/-- Value of `math.sin(math.radians(135))` (float64), as an exact rational. -/
def sin135 : ℚ := 7071067811865476 / 10000000000000000

/-- Value of `math.cos(math.radians(135))` (float64), as an exact rational. -/
def cos135 : ℚ := -7071067811865475 / 10000000000000000

/-- Value of `1.0 / math.sqrt(3)` (float64), the renderer scale correction
`X_SCALE_FACTOR` used in `crop_snowflake`. -/
def X_SCALE_FACTOR : ℚ := 5773502691896258 / 10000000000000000

/-- One row of curve-driven parameter values: the seven keys generated by
`CrystalEnvironment.build_env` (`gamma` is not curve-driven). -/
structure CurveRow where
  beta : ℚ
  theta : ℚ
  alpha : ℚ
  kappa : ℚ
  mu : ℚ
  upsilon : ℚ
  sigma : ℚ
deriving DecidableEq

/-- The scalar physical constants held by `CrystalEnvironment`. -/
structure CrystalEnvironment where
  beta : ℚ
  theta : ℚ
  alpha : ℚ
  kappa : ℚ
  mu : ℚ
  upsilon : ℚ
  sigma : ℚ
  gamma : ℚ
deriving DecidableEq

/-- Source `CrystalEnvironment._init_defaults`. -/
def defaultEnv : CrystalEnvironment :=
  { beta := 13/10, theta := 1/40, alpha := 2/25, kappa := 3/1000,
    mu := 7/100, upsilon := 1/20000, sigma := 1/100000, gamma := 1/2 }

/-- Source `CrystalEnvironment.step(x)`: if a curve source is attached, rewrite the
seven curve-driven parameters from the curves at index `x`; `gamma` is kept.
If no curve source is attached, the call is a no-op. -/
def CrystalEnvironment.step (env : CrystalEnvironment)
    (curves : Option (Nat → CurveRow)) (x : Nat) : CrystalEnvironment :=
  match curves with
  | none => env
  | some c =>
      { env with
        beta := (c x).beta, theta := (c x).theta, alpha := (c x).alpha,
        kappa := (c x).kappa, mu := (c x).mu, upsilon := (c x).upsilon,
        sigma := (c x).sigma }

/-- One lattice site's state (`SnowflakeCell`).  `next_dm` models the
`_next_dm` attribute written by `step_one`, `attachment_flag` the attribute
written by `step_two`; both start at harmless defaults (the Python object
simply lacks the attributes until first written, and they are never read
before being written). -/
structure SnowflakeCell where
  diffusive_mass : ℚ
  boundary_mass : ℚ
  crystal_mass : ℚ
  attached : Bool
  boundary : Bool
  attached_neighbors : List Int
  age : Nat
  next_dm : ℚ
  attachment_flag : Bool
deriving DecidableEq

/-- A fresh cell as built by `SnowflakeCell.__init__`: diffusive mass is the
environment's background density `gamma`, everything else zero / false. -/
def initCell (env : CrystalEnvironment) : SnowflakeCell :=
  { diffusive_mass := env.gamma, boundary_mass := 0, crystal_mass := 0,
    attached := false, boundary := false, attached_neighbors := [],
    age := 0, next_dm := 0, attachment_flag := false }

/-- The lattice's flat cell array, as a total function from the flat index
`y * size + x`. -/
def Cells : Type := Int → SnowflakeCell

/-- Write cell `i` (the only mutation the per-cell methods perform on the
array: each method rewrites fields of `self` only). -/
def setC (cs : Cells) (i : Int) (c : SnowflakeCell) : Cells :=
  fun j => if j = i then c else cs j

/-- Source `CrystalLattice._cell_index`: `y * size + x`. -/
def cell_index (size : Nat) (xy : Int × Int) : Int :=
  xy.2 * (size : Int) + xy.1

/-- Source `CrystalLattice._xy_ok`. -/
def xy_ok (size : Nat) (xy : Int × Int) : Bool :=
  0 ≤ xy.1 && xy.1 < (size : Int) && 0 ≤ xy.2 && xy.2 < (size : Int)

/-- Source `CrystalLattice.get_neighbors`: the six offsets
`(x, y+1), (x, y-1), (x-1, y), (x+1, y), (x-1, y-1), (x+1, y+1)` filtered to
the grid and mapped to flat indices.  The cell's `(x, y)` is recovered from
its flat index. -/
def get_neighbors (size : Nat) (i : Int) : List Int :=
  let x := i % (size : Int)
  let y := i / (size : Int)
  (([(x, y+1), (x, y-1), (x-1, y), (x+1, y), (x-1, y-1), (x+1, y+1)] :
      List (Int × Int)).filter (xy_ok size)).map (cell_index size)

/-- Source `SnowflakeCell.update_boundary`: boundary iff not attached and some
neighbor is attached. -/
def update_boundary (size : Nat) (cs : Cells) (i : Int) : Bool :=
  !(cs i).attached && (get_neighbors size i).any (fun j => (cs j).attached)

/-- Source `SnowflakeCell.diffusion_calc`: returns the next diffusive mass and the
(possibly incremented) age.  For an attached neighbor the cell's own
diffusive mass is added (reflecting boundary); the sum is divided by
(neighbor count + 1). -/
def diffusion_calc (size : Nat) (cs : Cells) (i : Int) : ℚ × Nat :=
  let c := cs i
  if c.attached then (c.diffusive_mass, c.age)
  else
    let nbrs := get_neighbors size i
    let s := nbrs.foldl
      (fun acc j =>
        if (cs j).attached then acc + c.diffusive_mass
        else acc + (cs j).diffusive_mass)
      c.diffusive_mass
    (s / ((nbrs.length : ℚ) + 1), c.age + 1)

/-- Source `SnowflakeCell.attach(offset)`. -/
def attach (offset : ℚ) (c : SnowflakeCell) : SnowflakeCell :=
  { c with crystal_mass := c.boundary_mass + c.crystal_mass + offset,
           boundary_mass := 0, attached := true }

/-- Source `SnowflakeCell.freezing_step`. -/
def freezing_step (env : CrystalEnvironment) (c : SnowflakeCell) : SnowflakeCell :=
  if !c.boundary then c
  else
    { c with boundary_mass := c.boundary_mass + (1 - env.kappa) * c.diffusive_mass,
             crystal_mass := c.crystal_mass + env.kappa * c.diffusive_mass,
             diffusive_mass := 0 }

/-- Source `SnowflakeCell.melting_step`. -/
def melting_step (env : CrystalEnvironment) (c : SnowflakeCell) : SnowflakeCell :=
  if !c.boundary then c
  else
    { c with diffusive_mass := c.diffusive_mass + env.mu * c.boundary_mass
                                 + env.upsilon * c.crystal_mass,
             boundary_mass := (1 - env.mu) * c.boundary_mass,
             crystal_mass := (1 - env.upsilon) * c.crystal_mass }

/-- Source `SnowflakeCell.noise_step`; `b` models `random.random() >= 0.5`. -/
def noise_step (env : CrystalEnvironment) (b : Bool) (c : SnowflakeCell) : SnowflakeCell :=
  if c.boundary || c.attached then c
  else if b then { c with diffusive_mass := (1 - env.sigma) * c.diffusive_mass }
  else { c with diffusive_mass := (1 + env.sigma) * c.diffusive_mass }

/-- Source `SnowflakeCell.attachment_step`, reading the lattice as it stands when
the cell's phase-two turn evaluates it. -/
def attachment_step (env : CrystalEnvironment) (size : Nat) (cs : Cells) (i : Int) : Bool :=
  let c := cs i
  if !c.boundary then false
  else
    let n := c.attached_neighbors.length
    if n ≤ 2 then
      if env.beta < c.boundary_mass then true else false
    else if n = 3 then
      if 1 ≤ c.boundary_mass then true
      else
        let summed := (get_neighbors size i).foldl
          (fun acc j => acc + (cs j).diffusive_mass) c.diffusive_mass
        if summed < env.theta ∧ env.alpha ≤ c.boundary_mass then true else false
    else if 4 ≤ n then true
    else false

/-- The new value of cell `i` after `SnowflakeCell.step_one`: recompute
`boundary`, snapshot `attached_neighbors` when boundary, and store the
diffusion candidate `_next_dm` (with the age increment done inside
`diffusion_calc`). -/
def step_one_val (size : Nat) (cs : Cells) (i : Int) : SnowflakeCell :=
  let c := cs i
  let nbrs := get_neighbors size i
  let bnd := update_boundary size cs i
  let an := if bnd then nbrs.filter (fun j => (cs j).attached) else c.attached_neighbors
  let p := diffusion_calc size cs i
  { c with boundary := bnd, attached_neighbors := an, next_dm := p.1, age := p.2 }

/-- Source `SnowflakeCell.step_one` as an in-place write to the cell array. -/
def step_one (size : Nat) (cs : Cells) (i : Int) : Cells :=
  setC cs i (step_one_val size cs i)

/-- The new value of cell `i` after `SnowflakeCell.step_two`: commit
`_next_dm`, freeze, evaluate the attachment predicate against the lattice
as it currently stands (own cell already frozen), then melt. -/
def step_two_val (env : CrystalEnvironment) (size : Nat) (cs : Cells) (i : Int) : SnowflakeCell :=
  let c0 := cs i
  let c1 := { c0 with diffusive_mass := c0.next_dm, attachment_flag := c0.attached }
  let c2 := freezing_step env c1
  let flag := attachment_step env size (setC cs i c2) i
  let c3 := { c2 with attachment_flag := flag }
  melting_step env c3

/-- Source `SnowflakeCell.step_two` as an in-place write to the cell array. -/
def step_two (env : CrystalEnvironment) (size : Nat) (cs : Cells) (i : Int) : Cells :=
  setC cs i (step_two_val env size cs i)

/-- The new value of a cell after `SnowflakeCell.step_three`: attach if the
cell is a boundary cell whose phase-two flag was true, then apply noise.
Only the cell's own state is read. -/
def step_three_cell (env : CrystalEnvironment) (b : Bool) (c : SnowflakeCell) : SnowflakeCell :=
  let c1 := if c.boundary && c.attachment_flag then attach 0 c else c
  noise_step env b c1

/-- Source `SnowflakeCell.step_three` as an in-place write to the cell array. -/
def step_three (env : CrystalEnvironment) (rnd : Int → Bool) (cs : Cells) (i : Int) : Cells :=
  setC cs i (step_three_cell env (rnd i) (cs i))

/-- The flat indices `0, 1, ..., size*size - 1` in loop order. -/
def idxList (size : Nat) : List Int :=
  List.map Int.ofNat (List.range (size * size))

/-- One per-phase loop of `CrystalLattice.step`: iterate over all cells in
index order, skipping cells that are (currently) attached, updating the
array in place. -/
def phaseFold (size : Nat) (f : Cells → Int → Cells) (cs : Cells) : Cells :=
  (idxList size).foldl (fun a i => if (a i).attached then a else f a i) cs

/-- Source `CrystalLattice`. -/
structure CrystalLattice where
  size : Nat
  iteration : Nat
  margin : ℚ
  max_steps : Nat
  env : CrystalEnvironment
  curves : Option (Nat → CurveRow)
  cells : Cells

/-- Source `CrystalLattice.__init__` plus `_init_cells`: iteration starts at 1, the
margin defaults to 0.85 when the argument is `None` or falsy, all cells are
fresh, and the grid-center cell is attached with offset 1. -/
def CrystalLattice.init (size : Nat) (env : CrystalEnvironment)
    (curves : Option (Nat → CurveRow)) (max_steps : Nat)
    (margin : Option ℚ) : CrystalLattice :=
  let m : ℚ := match margin with
    | none => 17/20
    | some v => if v = 0 then 17/20 else v
  let center : Int := cell_index size ((size / 2 : Nat), (size / 2 : Nat))
  { size := size, iteration := 1, margin := m, max_steps := max_steps,
    env := env, curves := curves,
    cells := fun i => if i = center then attach 1 (initCell env) else initCell env }

/-- Source `CrystalLattice.step`: the three sequential per-phase loops, then the
iteration increment, then `Environment.step(iteration)`. -/
def CrystalLattice.step (L : CrystalLattice) (rnd : Int → Bool) : CrystalLattice :=
  let cs1 := phaseFold L.size (step_one L.size) L.cells
  let cs2 := phaseFold L.size (step_two L.env L.size) cs1
  let cs3 := phaseFold L.size (step_three L.env rnd) cs2
  let it := L.iteration + 1
  { L with cells := cs3, iteration := it,
           env := L.env.step L.curves it }

/-- Source `CrystalLattice.polar_to_xy`, with `math.sin`/`math.cos` of the angle
supplied as rational models of the float64 values (see `sin135`, `cos135`
for the default angle 135). -/
def polar_to_xy (sinA cosA : ℚ) (half : ℚ) (distance : ℚ) : Int × Int :=
  let y := pyRound (half - sinA * distance)
  let x := pyRound (half + cosA * distance)
  (x, y)

/-- The cell sampled by the radius march at distance `r`. -/
def ray_cell (L : CrystalLattice) (sinA cosA : ℚ) (r : Nat) : SnowflakeCell :=
  L.cells (cell_index L.size (polar_to_xy sinA cosA ((L.size : ℚ) / 2) (r : ℚ)))

/-- The while-loop of `CrystalLattice.snowflake_radius`, with explicit fuel
(the loop body runs at most `⌈size/2⌉` times, so `size + 1` fuel is never
exhausted). -/
def snowflake_radius_aux (L : CrystalLattice) (sinA cosA : ℚ) : Nat → Nat → Int
  | _, 0 => pyRound ((L.size : ℚ) / 2)
  | radius, fuel + 1 =>
    if (radius : ℚ) < (L.size : ℚ) / 2 then
      let r := radius + 1
      let cell := ray_cell L sinA cosA r
      if cell.attached || cell.boundary then snowflake_radius_aux L sinA cosA r fuel
      else (r : Int)
    else pyRound ((L.size : ℚ) / 2)

/-- Source `CrystalLattice.snowflake_radius`: march outward from the grid center,
returning the first distance whose sampled cell is neither attached nor
boundary, or `int(round(size/2))` if the march exits the grid. -/
def snowflake_radius (L : CrystalLattice) (sinA cosA : ℚ) : Int :=
  snowflake_radius_aux L sinA cosA 0 (L.size + 1)

/-- The `scale` helper inside `crop_snowflake`. -/
def scale (val : ℚ) : Int := pyRound (X_SCALE_FACTOR * val)

/-- Source `CrystalLattice.crop_snowflake`: note the source computes `distance_s =
scale(distance)` but builds the box from the unscaled `distance`. -/
def crop_snowflake (L : CrystalLattice) (margin : Option ℚ) : ℚ × ℚ × ℚ × ℚ :=
  let m : ℚ := match margin with | none => 15 | some v => v
  let half : ℚ := (L.size : ℚ) / 2
  let radius := scale ((snowflake_radius L sin135 cos135 : ℤ) : ℚ)
  let distance : ℚ := min ((radius : ℚ) + m) half
  let half_s := scale half
  ((half_s : ℚ) - distance, half - distance, (half_s : ℚ) + distance, half + distance)

/-- Source `CrystalLattice.headroom`: false once `max_steps` is set and reached, or
once the measured radius exceeds `int(round(margin * size/2))`. -/
def headroom (L : CrystalLattice) : Bool :=
  if L.max_steps ≠ 0 ∧ L.max_steps ≤ L.iteration then false
  else
    let cutoff : Int := pyRound (L.margin * ((L.size : ℚ) / 2))
    let radius := snowflake_radius L sin135 cos135
    if cutoff < radius then false else true

/-- Source `CrystalLattice.grow` with explicit fuel.  Returns the final lattice,
the list of indices passed to `Environment.step` (one per executed
`step()`), and whether the loop exited through `headroom` (`false` means
the fuel ran out, a case the theorems rule out). -/
def growAux : Nat → CrystalLattice → (Nat → Int → Bool) → CrystalLattice × List Nat × Bool
  | 0, L, _ => (L, [], false)
  | fuel + 1, L, rnds =>
    let L' := L.step (rnds L.iteration)
    if headroom L' then
      let r := growAux fuel L' rnds
      (r.1, L'.iteration :: r.2.1, r.2.2)
    else (L', [L'.iteration], true)

/-- Iterated `step()`, drawing each iteration's noise oracle from `rnds`. -/
def stepMany (rnds : Nat → Int → Bool) : Nat → CrystalLattice → CrystalLattice
  | 0, L => L
  | k + 1, L => stepMany rnds k (L.step (rnds L.iteration))

/-! ### Generic helper lemmas -/

/-- Source `pyRound` returns the unique integer within distance 1/2 (tie cases are
never reached by the bounds used in this development). -/
theorem pyRound_eq (q : ℚ) (n : Int) (h1 : (n : ℚ) - 1/2 < q) (h2 : q < (n : ℚ) + 1/2) :
    pyRound q = n := by
  unfold pyRound
  rcases le_or_lt (n : ℚ) q with hq | hq
  · have hfl : ⌊q⌋ = n := by
      rw [Int.floor_eq_iff]
      exact ⟨hq, by linarith⟩
    rw [hfl]
    have hlt : q - (n : ℚ) < 1/2 := by linarith
    simp only [hlt, if_true]
  · have hfl : ⌊q⌋ = n - 1 := by
      rw [Int.floor_eq_iff]
      constructor
      · push_cast; linarith
      · push_cast; linarith
    rw [hfl]
    have hnlt : ¬(q - ((n - 1 : ℤ) : ℚ) < 1/2) := by push_cast; push_neg; linarith
    have hgt : 1/2 < q - ((n - 1 : ℤ) : ℚ) := by push_cast; linarith
    simp only [hnlt, if_false, hgt, if_true]
    omega

/-- Folding `fun acc j => acc + f j` is adding the mapped sum. -/
theorem foldl_add_eq (f : Int → ℚ) (l : List Int) (init : ℚ) :
    l.foldl (fun acc j => acc + f j) init = init + (l.map f).sum := by
  induction l generalizing init with
  | nil => simp
  | cons hd tl ih => simp [List.foldl_cons, ih, add_assoc]

/-- Congruence for `List.any` under pointwise-equal predicates. -/
theorem list_any_congr {p q : Int → Bool} (l : List Int)
    (h : ∀ x ∈ l, p x = q x) : l.any p = l.any q := by
  induction l with
  | nil => rfl
  | cons hd tl ih =>
      simp only [List.any_cons, h hd (by simp)]
      rw [ih (fun x hx => h x (by simp [hx]))]

/-- Congruence for `List.filter` under pointwise-equal predicates. -/
theorem list_filter_congr {p q : Int → Bool} (l : List Int)
    (h : ∀ x ∈ l, p x = q x) : l.filter p = l.filter q := by
  induction l with
  | nil => rfl
  | cons hd tl ih =>
      simp only [List.filter_cons, h hd (by simp)]
      rw [ih (fun x hx => h x (by simp [hx]))]

/-- Congruence for `List.foldl` under functions equal on list members. -/
theorem list_foldl_congr (f g : ℚ → Int → ℚ) (l : List Int)
    (h : ∀ acc, ∀ x ∈ l, f acc x = g acc x) :
    ∀ init, l.foldl f init = l.foldl g init := by
  induction l with
  | nil => intro init; rfl
  | cons hd tl ih =>
      intro init
      simp only [List.foldl_cons, h init hd (by simp)]
      exact ih (fun acc x hx => h acc x (by simp [hx])) (g init hd)

/-! ### Phase-fold machinery: writes are per-cell, reads are characterized -/

/-- The guarded per-cell update a phase loop applies at each index. -/
def phaseStep (f : Cells → Int → Cells) (a : Cells) (i : Int) : Cells :=
  if (a i).attached then a else f a i

theorem phaseFold_eq_foldl (size : Nat) (f : Cells → Int → Cells) (cs : Cells) :
    phaseFold size f cs = (idxList size).foldl (phaseStep f) cs := rfl

/-- A phase's update at index `i` writes only cell `i`. -/
theorem phaseStep_writes_local (f : Cells → Int → Cells)
    (hf : ∀ a i j, j ≠ i → f a i j = a j) :
    ∀ a i j, j ≠ i → phaseStep f a i j = a j := by
  intro a i j hj
  unfold phaseStep
  by_cases h : (a i).attached = true
  · simp [h]
  · simp only [h, if_false]
    exact hf a i j hj

theorem step_one_writes_local (size : Nat) :
    ∀ a i j, j ≠ i → step_one size a i j = a j := by
  intro a i j hj
  simp [step_one, setC, hj]

theorem step_two_writes_local (env : CrystalEnvironment) (size : Nat) :
    ∀ a i j, j ≠ i → step_two env size a i j = a j := by
  intro a i j hj
  simp [step_two, setC, hj]

theorem step_three_writes_local (env : CrystalEnvironment) (rnd : Int → Bool) :
    ∀ a i j, j ≠ i → step_three env rnd a i j = a j := by
  intro a i j hj
  simp [step_three, setC, hj]

/-- A cell whose index is not in the iteration list is untouched by the fold. -/
theorem foldl_phaseStep_notMem (f : Cells → Int → Cells)
    (hf : ∀ a i j, j ≠ i → f a i j = a j) :
    ∀ (l : List Int) (a : Cells) (i : Int), i ∉ l →
      l.foldl (phaseStep f) a i = a i := by
  intro l
  induction l with
  | nil => intro a i _; rfl
  | cons hd tl ih =>
      intro a i hi
      have hne : i ≠ hd := fun h => hi (h ▸ List.mem_cons_self hd tl)
      have htl : i ∉ tl := fun h => hi (List.mem_cons_of_mem hd h)
      rw [List.foldl_cons, ih _ i htl, phaseStep_writes_local f hf a hd i hne]

/-- An attached cell is skipped by every phase loop and never written:
its value survives the fold unchanged. -/
theorem foldl_phaseStep_frozen (f : Cells → Int → Cells)
    (hf : ∀ a i j, j ≠ i → f a i j = a j) :
    ∀ (l : List Int) (a : Cells) (i : Int), (a i).attached = true →
      l.foldl (phaseStep f) a i = a i := by
  intro l
  induction l with
  | nil => intro a i _; rfl
  | cons hd tl ih =>
      intro a i hi
      by_cases h : hd = i
      · subst h
        rw [List.foldl_cons]
        have : phaseStep f a hd = a := by unfold phaseStep; simp [hi]
        rw [this, ih _ _ hi]
      · rw [List.foldl_cons]
        have hval : phaseStep f a hd i = a i :=
          phaseStep_writes_local f hf a hd i (fun hc => h hc.symm)
        rw [ih _ _ (by rw [hval]; exact hi), hval]

/-- Any field projection left untouched by a phase's per-cell update is
preserved for every cell across the whole fold. -/
theorem foldl_preserves_proj {α : Type} (f : Cells → Int → Cells)
    (hf : ∀ a i j, j ≠ i → f a i j = a j)
    (pr : SnowflakeCell → α) (hpr : ∀ a i, pr (f a i i) = pr (a i)) :
    ∀ (l : List Int) (a : Cells) (j : Int),
      pr ((l.foldl (phaseStep f) a) j) = pr (a j) := by
  intro l
  induction l with
  | nil => intro a j; rfl
  | cons hd tl ih =>
      intro a j
      rw [List.foldl_cons, ih]
      by_cases h : j = hd
      · subst h
        unfold phaseStep
        by_cases ha : (a j).attached = true
        · simp [ha]
        · simp only [ha, if_false]
          exact hpr a j
      · rw [phaseStep_writes_local f hf a hd j h]

/-- Source `step_one` writes only `boundary`, `attached_neighbors`, `next_dm`, `age`. -/
theorem step_one_val_attached (size : Nat) (a : Cells) (i : Int) :
    (step_one_val size a i).attached = (a i).attached := rfl

theorem step_one_val_dm (size : Nat) (a : Cells) (i : Int) :
    (step_one_val size a i).diffusive_mass = (a i).diffusive_mass := rfl

theorem step_one_val_bm (size : Nat) (a : Cells) (i : Int) :
    (step_one_val size a i).boundary_mass = (a i).boundary_mass := rfl

theorem step_one_val_cm (size : Nat) (a : Cells) (i : Int) :
    (step_one_val size a i).crystal_mass = (a i).crystal_mass := rfl

/-- Source `freezing_step` writes only masses. -/
theorem freezing_step_attached (env : CrystalEnvironment) (c : SnowflakeCell) :
    (freezing_step env c).attached = c.attached := by
  unfold freezing_step; split <;> rfl

theorem freezing_step_boundary (env : CrystalEnvironment) (c : SnowflakeCell) :
    (freezing_step env c).boundary = c.boundary := by
  unfold freezing_step; split <;> rfl

theorem freezing_step_next_dm (env : CrystalEnvironment) (c : SnowflakeCell) :
    (freezing_step env c).next_dm = c.next_dm := by
  unfold freezing_step; split <;> rfl

theorem freezing_step_an (env : CrystalEnvironment) (c : SnowflakeCell) :
    (freezing_step env c).attached_neighbors = c.attached_neighbors := by
  unfold freezing_step; split <;> rfl

/-- Source `melting_step` writes only masses. -/
theorem melting_step_attached (env : CrystalEnvironment) (c : SnowflakeCell) :
    (melting_step env c).attached = c.attached := by
  unfold melting_step; split <;> rfl

theorem melting_step_boundary (env : CrystalEnvironment) (c : SnowflakeCell) :
    (melting_step env c).boundary = c.boundary := by
  unfold melting_step; split <;> rfl

theorem melting_step_next_dm (env : CrystalEnvironment) (c : SnowflakeCell) :
    (melting_step env c).next_dm = c.next_dm := by
  unfold melting_step; split <;> rfl

theorem melting_step_an (env : CrystalEnvironment) (c : SnowflakeCell) :
    (melting_step env c).attached_neighbors = c.attached_neighbors := by
  unfold melting_step; split <;> rfl

/-- Source `noise_step` writes only the diffusive mass. -/
theorem noise_step_attached (env : CrystalEnvironment) (b : Bool) (c : SnowflakeCell) :
    (noise_step env b c).attached = c.attached := by
  unfold noise_step
  split
  · rfl
  · split <;> rfl

theorem noise_step_boundary (env : CrystalEnvironment) (b : Bool) (c : SnowflakeCell) :
    (noise_step env b c).boundary = c.boundary := by
  unfold noise_step
  split
  · rfl
  · split <;> rfl

theorem noise_step_bm (env : CrystalEnvironment) (b : Bool) (c : SnowflakeCell) :
    (noise_step env b c).boundary_mass = c.boundary_mass := by
  unfold noise_step
  split
  · rfl
  · split <;> rfl

theorem noise_step_cm (env : CrystalEnvironment) (b : Bool) (c : SnowflakeCell) :
    (noise_step env b c).crystal_mass = c.crystal_mass := by
  unfold noise_step
  split
  · rfl
  · split <;> rfl

/-- Source `step_two` writes only masses and the attachment flag. -/
theorem step_two_val_attached (env : CrystalEnvironment) (size : Nat) (a : Cells) (i : Int) :
    (step_two_val env size a i).attached = (a i).attached := by
  unfold step_two_val
  rw [melting_step_attached, freezing_step_attached]

theorem step_two_val_boundary (env : CrystalEnvironment) (size : Nat) (a : Cells) (i : Int) :
    (step_two_val env size a i).boundary = (a i).boundary := by
  unfold step_two_val
  rw [melting_step_boundary, freezing_step_boundary]

theorem step_two_val_next_dm (env : CrystalEnvironment) (size : Nat) (a : Cells) (i : Int) :
    (step_two_val env size a i).next_dm = (a i).next_dm := by
  unfold step_two_val
  rw [melting_step_next_dm, freezing_step_next_dm]

theorem step_two_val_an (env : CrystalEnvironment) (size : Nat) (a : Cells) (i : Int) :
    (step_two_val env size a i).attached_neighbors = (a i).attached_neighbors := by
  unfold step_two_val
  rw [melting_step_an, freezing_step_an]

/-- Source `step_three` never clears `boundary`. -/
theorem step_three_cell_boundary (env : CrystalEnvironment) (b : Bool) (c : SnowflakeCell) :
    (step_three_cell env b c).boundary = c.boundary := by
  unfold step_three_cell
  rw [noise_step_boundary]
  split <;> rfl

/-! ### Per-phase preservation across the whole fold -/

theorem phase1_preserves_attached (size : Nat) (cs : Cells) (j : Int) :
    ((phaseFold size (step_one size) cs) j).attached = (cs j).attached := by
  rw [phaseFold_eq_foldl]
  exact foldl_preserves_proj _ (step_one_writes_local size)
    (fun c => c.attached) (fun a i => by simp [step_one, setC, step_one_val_attached]) _ cs j

theorem phase2_preserves_attached (env : CrystalEnvironment) (size : Nat) (cs : Cells) (j : Int) :
    ((phaseFold size (step_two env size) cs) j).attached = (cs j).attached := by
  rw [phaseFold_eq_foldl]
  exact foldl_preserves_proj _ (step_two_writes_local env size)
    (fun c => c.attached) (fun a i => by simp [step_two, setC, step_two_val_attached]) _ cs j

theorem phase2_preserves_boundary (env : CrystalEnvironment) (size : Nat) (cs : Cells) (j : Int) :
    ((phaseFold size (step_two env size) cs) j).boundary = (cs j).boundary := by
  rw [phaseFold_eq_foldl]
  exact foldl_preserves_proj _ (step_two_writes_local env size)
    (fun c => c.boundary) (fun a i => by simp [step_two, setC, step_two_val_boundary]) _ cs j

theorem phase2_preserves_next_dm (env : CrystalEnvironment) (size : Nat) (cs : Cells) (j : Int) :
    ((phaseFold size (step_two env size) cs) j).next_dm = (cs j).next_dm := by
  rw [phaseFold_eq_foldl]
  exact foldl_preserves_proj _ (step_two_writes_local env size)
    (fun c => c.next_dm) (fun a i => by simp [step_two, setC, step_two_val_next_dm]) _ cs j

theorem phase2_preserves_an (env : CrystalEnvironment) (size : Nat) (cs : Cells) (j : Int) :
    ((phaseFold size (step_two env size) cs) j).attached_neighbors = (cs j).attached_neighbors := by
  rw [phaseFold_eq_foldl]
  exact foldl_preserves_proj _ (step_two_writes_local env size)
    (fun c => c.attached_neighbors) (fun a i => by simp [step_two, setC, step_two_val_an]) _ cs j

theorem phase3_preserves_boundary (env : CrystalEnvironment) (rnd : Int → Bool) (cs : Cells)
    (size : Nat) (j : Int) :
    ((phaseFold size (step_three env rnd) cs) j).boundary = (cs j).boundary := by
  rw [phaseFold_eq_foldl]
  exact foldl_preserves_proj _ (step_three_writes_local env rnd)
    (fun c => c.boundary) (fun a i => by simp [step_three, setC, step_three_cell_boundary]) _ cs j

/-! ### Characterization of phase one and phase three as synchronous maps -/

theorem idxList_nodup (size : Nat) : (idxList size).Nodup := by
  unfold idxList
  refine List.Nodup.map ?_ (List.nodup_range (size * size))
  intro a b h
  simpa using h

theorem mem_idxList (size : Nat) (i : Int) :
    i ∈ idxList size ↔ 0 ≤ i ∧ i < ((size * size : Nat) : Int) := by
  unfold idxList
  simp only [List.mem_map, List.mem_range, Int.ofNat_eq_natCast]
  constructor
  · rintro ⟨k, hk, rfl⟩
    omega
  · rintro ⟨h0, hlt⟩
    refine ⟨i.toNat, ?_, ?_⟩ <;> omega

/-- Source `step_one`'s per-cell result depends only on the cell itself and on the
`attached` and `diffusive_mass` fields of other cells, which phase one never
writes. -/
theorem step_one_val_congr (size : Nat) (a cs : Cells) (i : Int)
    (hInv : ∀ j, (a j).attached = (cs j).attached ∧
                 (a j).diffusive_mass = (cs j).diffusive_mass)
    (hi : a i = cs i) :
    step_one_val size a i = step_one_val size cs i := by
  have hub : update_boundary size a i = update_boundary size cs i := by
    unfold update_boundary
    rw [hi, list_any_congr _ (fun x _ => (hInv x).1)]
  have hdc : diffusion_calc size a i = diffusion_calc size cs i := by
    unfold diffusion_calc
    rw [hi]
    by_cases hat : (cs i).attached = true
    · simp [hat]
    · simp only [hat, if_false]
      rw [list_foldl_congr
            (fun acc j => if (a j).attached = true then acc + (cs i).diffusive_mass
                          else acc + (a j).diffusive_mass)
            (fun acc j => if (cs j).attached = true then acc + (cs i).diffusive_mass
                          else acc + (cs j).diffusive_mass)
            _ (fun acc x _ => by simp [(hInv x).1, (hInv x).2])]
  have han : (get_neighbors size i).filter (fun j => (a j).attached)
      = (get_neighbors size i).filter (fun j => (cs j).attached) :=
    list_filter_congr _ (fun x _ => (hInv x).1)
  simp only [step_one_val]
  rw [hub, hdc, han, hi]

/-- During the phase-one fold, every cell's value at the moment its own turn
comes still reads the pre-iteration `attached`/`diffusive_mass` data, so the
sequential loop computes the same cell as the synchronous map. -/
theorem phase1_fold_char_aux (size : Nat) (cs : Cells) :
    ∀ (l : List Int), l.Nodup → ∀ (a : Cells),
      (∀ j, (a j).attached = (cs j).attached ∧
            (a j).diffusive_mass = (cs j).diffusive_mass) →
      ∀ i ∈ l, a i = cs i →
      (l.foldl (phaseStep (step_one size)) a) i
        = if (cs i).attached then cs i else step_one_val size cs i := by
  intro l
  induction l with
  | nil => intro _ a _ i hi; exact absurd hi (List.not_mem_nil i)
  | cons hd tl ih =>
      intro hnd a hInv i hi hacs
      have hndtl : tl.Nodup := (List.nodup_cons.mp hnd).2
      have hhdtl : hd ∉ tl := (List.nodup_cons.mp hnd).1
      rw [List.foldl_cons]
      rcases List.mem_cons.mp hi with heq | htl
      · subst heq
        by_cases hat : (a i).attached = true
        · have hskip : phaseStep (step_one size) a i = a := by
            unfold phaseStep; rw [if_pos hat]
          rw [hskip, foldl_phaseStep_notMem _ (step_one_writes_local size) _ _ _ hhdtl,
              hacs]
          have hcs : (cs i).attached = true := by rw [← hacs]; exact hat
          rw [if_pos hcs]
        · have hproc : phaseStep (step_one size) a i = step_one size a i := by
            unfold phaseStep; rw [if_neg hat]
          rw [hproc]
          have hset : step_one size a i i = step_one_val size a i := by
            simp [step_one, setC]
          rw [foldl_phaseStep_notMem _ (step_one_writes_local size) _ _ _ hhdtl, hset,
              step_one_val_congr size a cs i hInv hacs]
          have hcs : ¬((cs i).attached = true) := by rw [← hacs]; exact hat
          rw [if_neg hcs]
      · have hne : hd ≠ i := fun h => hhdtl (h ▸ htl)
        have ha' : phaseStep (step_one size) a hd i = a i :=
          phaseStep_writes_local _ (step_one_writes_local size) a hd i (fun h => hne h.symm)
        apply ih hndtl
        · intro j
          by_cases hj : j = hd
          · subst hj
            unfold phaseStep
            by_cases hat : (a j).attached = true
            · rw [if_pos hat]; exact hInv j
            · rw [if_neg hat]
              have h1 : (step_one size a j j).attached = (a j).attached := by
                simp [step_one, setC, step_one_val_attached]
              have h2 : (step_one size a j j).diffusive_mass = (a j).diffusive_mass := by
                simp [step_one, setC, step_one_val_dm]
              rw [h1, h2]; exact hInv j
          · rw [phaseStep_writes_local _ (step_one_writes_local size) a hd j
                  (fun h => hj h)]
            exact hInv j
        · exact htl
        · rw [ha']; exact hacs

/-- Phase one of `step()` equals the synchronous per-cell map. -/
theorem phase1_char (size : Nat) (cs : Cells) (i : Int) (hi : i ∈ idxList size) :
    (phaseFold size (step_one size) cs) i
      = if (cs i).attached then cs i else step_one_val size cs i := by
  rw [phaseFold_eq_foldl]
  exact phase1_fold_char_aux size cs (idxList size) (idxList_nodup size) cs
    (fun j => ⟨rfl, rfl⟩) i hi rfl

/-- Phase three's per-cell update reads only the cell's own state, so the
sequential loop computes the same cell as the synchronous map. -/
theorem phase3_fold_char_aux (env : CrystalEnvironment) (rnd : Int → Bool) (cs : Cells) :
    ∀ (l : List Int), l.Nodup → ∀ (a : Cells),
      ∀ i ∈ l, a i = cs i →
      (l.foldl (phaseStep (step_three env rnd)) a) i
        = if (cs i).attached then cs i else step_three_cell env (rnd i) (cs i) := by
  intro l
  induction l with
  | nil => intro _ a i hi; exact absurd hi (List.not_mem_nil i)
  | cons hd tl ih =>
      intro hnd a i hi hacs
      have hndtl : tl.Nodup := (List.nodup_cons.mp hnd).2
      have hhdtl : hd ∉ tl := (List.nodup_cons.mp hnd).1
      rw [List.foldl_cons]
      rcases List.mem_cons.mp hi with heq | htl
      · subst heq
        by_cases hat : (a i).attached = true
        · have hskip : phaseStep (step_three env rnd) a i = a := by
            unfold phaseStep; rw [if_pos hat]
          rw [hskip, foldl_phaseStep_notMem _ (step_three_writes_local env rnd) _ _ _ hhdtl,
              hacs]
          have hcs : (cs i).attached = true := by rw [← hacs]; exact hat
          rw [if_pos hcs]
        · have hproc : phaseStep (step_three env rnd) a i = step_three env rnd a i := by
            unfold phaseStep; rw [if_neg hat]
          rw [hproc]
          have hset : step_three env rnd a i i = step_three_cell env (rnd i) (a i) := by
            simp [step_three, setC]
          rw [foldl_phaseStep_notMem _ (step_three_writes_local env rnd) _ _ _ hhdtl, hset,
              hacs]
          have hcs : ¬((cs i).attached = true) := by rw [← hacs]; exact hat
          rw [if_neg hcs]
      · have hne : hd ≠ i := fun h => hhdtl (h ▸ htl)
        have ha' : phaseStep (step_three env rnd) a hd i = a i :=
          phaseStep_writes_local _ (step_three_writes_local env rnd) a hd i (fun h => hne h.symm)
        exact ih hndtl _ i htl (by rw [ha']; exact hacs)

/-- Phase three of `step()` equals the synchronous per-cell map. -/
theorem phase3_char (env : CrystalEnvironment) (rnd : Int → Bool) (size : Nat)
    (cs : Cells) (i : Int) (hi : i ∈ idxList size) :
    (phaseFold size (step_three env rnd) cs) i
      = if (cs i).attached then cs i else step_three_cell env (rnd i) (cs i) := by
  rw [phaseFold_eq_foldl]
  exact phase3_fold_char_aux env rnd cs (idxList size) (idxList_nodup size) cs i hi rfl

/-- A cell outside the iterated index range is untouched by a whole `step()`. -/
theorem step_cells_out_of_range (L : CrystalLattice) (rnd : Int → Bool) (i : Int)
    (hi : i ∉ idxList L.size) :
    (L.step rnd).cells i = L.cells i := by
  show (phaseFold L.size (step_three L.env rnd)
    (phaseFold L.size (step_two L.env L.size)
      (phaseFold L.size (step_one L.size) L.cells))) i = L.cells i
  rw [phaseFold_eq_foldl,
      foldl_phaseStep_notMem _ (step_three_writes_local L.env rnd) _ _ _ hi,
      phaseFold_eq_foldl,
      foldl_phaseStep_notMem _ (step_two_writes_local L.env L.size) _ _ _ hi,
      phaseFold_eq_foldl,
      foldl_phaseStep_notMem _ (step_one_writes_local L.size) _ _ _ hi]

/-- An attached cell is completely untouched by a whole `step()`: all three
phase loops skip it and no other cell's update writes to it. -/
theorem step_cells_frozen (L : CrystalLattice) (rnd : Int → Bool) (i : Int)
    (hi : (L.cells i).attached = true) :
    (L.step rnd).cells i = L.cells i := by
  show (phaseFold L.size (step_three L.env rnd)
    (phaseFold L.size (step_two L.env L.size)
      (phaseFold L.size (step_one L.size) L.cells))) i = L.cells i
  have h1 : (phaseFold L.size (step_one L.size) L.cells) i = L.cells i := by
    rw [phaseFold_eq_foldl]
    exact foldl_phaseStep_frozen _ (step_one_writes_local L.size) _ _ _ hi
  have h2 : (phaseFold L.size (step_two L.env L.size)
      (phaseFold L.size (step_one L.size) L.cells)) i
      = (phaseFold L.size (step_one L.size) L.cells) i := by
    rw [phaseFold_eq_foldl]
    exact foldl_phaseStep_frozen _ (step_two_writes_local L.env L.size) _ _ _ (by rw [h1]; exact hi)
  rw [phaseFold_eq_foldl]
  rw [foldl_phaseStep_frozen _ (step_three_writes_local L.env rnd) _ _ _ (by rw [h2, h1]; exact hi)]
  rw [h2, h1]

/-- Iterated version of `step_cells_frozen`. -/
theorem stepMany_cells_frozen (rnds : Nat → Int → Bool) (k : Nat) (L : CrystalLattice)
    (i : Int) (hi : (L.cells i).attached = true) :
    (stepMany rnds k L).cells i = L.cells i := by
  induction k generalizing L with
  | zero => rfl
  | succ n ih =>
      show (stepMany rnds n (L.step (rnds L.iteration))).cells i = L.cells i
      rw [ih (L.step (rnds L.iteration))
            (by rw [step_cells_frozen L _ i hi]; exact hi),
          step_cells_frozen L _ i hi]

theorem step_three_cell_attached (env : CrystalEnvironment) (b : Bool) (c : SnowflakeCell) :
    (step_three_cell env b c).attached = (c.boundary && c.attachment_flag || c.attached) := by
  unfold step_three_cell
  rw [noise_step_attached]
  by_cases h : (c.boundary && c.attachment_flag) = true
  · rw [if_pos h, h]
    rfl
  · rw [if_neg h]
    have : (c.boundary && c.attachment_flag) = false := by
      revert h; cases c.boundary && c.attachment_flag <;> simp
    rw [this, Bool.false_or]

theorem step_three_cell_bm (env : CrystalEnvironment) (b : Bool) (c : SnowflakeCell) :
    (step_three_cell env b c).boundary_mass
      = if c.boundary && c.attachment_flag then 0 else c.boundary_mass := by
  unfold step_three_cell
  rw [noise_step_bm]
  by_cases h : (c.boundary && c.attachment_flag) = true
  · rw [if_pos h, if_pos h]
    rfl
  · rw [if_neg h, if_neg h]

/-- After one `step()`, the boundary flag of a cell that was not attached at
the start of the iteration reflects the neighbor attachment as it stood at
the start of the iteration (phase one computes it; phases two and three
never write it). -/
theorem step_cells_boundary_char (L : CrystalLattice) (rnd : Int → Bool) (i : Int)
    (hi : i ∈ idxList L.size) (hat : (L.cells i).attached = false) :
    ((L.step rnd).cells i).boundary = update_boundary L.size L.cells i := by
  show ((phaseFold L.size (step_three L.env rnd)
    (phaseFold L.size (step_two L.env L.size)
      (phaseFold L.size (step_one L.size) L.cells))) i).boundary = _
  rw [phase3_preserves_boundary, phase2_preserves_boundary,
      phase1_char L.size L.cells i hi, if_neg (by rw [hat]; exact Bool.false_ne_true)]
  rfl

/-- A cell that starts the iteration unattached with no attached neighbor is
still unattached after the `step()`. -/
theorem step_cells_no_attach (L : CrystalLattice) (rnd : Int → Bool) (i : Int)
    (hi : i ∈ idxList L.size) (hat : (L.cells i).attached = false)
    (hnb : update_boundary L.size L.cells i = false) :
    ((L.step rnd).cells i).attached = false := by
  show ((phaseFold L.size (step_three L.env rnd)
    (phaseFold L.size (step_two L.env L.size)
      (phaseFold L.size (step_one L.size) L.cells))) i).attached = false
  set cs1 := phaseFold L.size (step_one L.size) L.cells with hcs1
  set cs2 := phaseFold L.size (step_two L.env L.size) cs1 with hcs2
  have h2at : (cs2 i).attached = false := by
    rw [hcs2, phase2_preserves_attached, hcs1, phase1_char L.size L.cells i hi,
        if_neg (by rw [hat]; exact Bool.false_ne_true), step_one_val_attached]
    exact hat
  have h2bd : (cs2 i).boundary = false := by
    rw [hcs2, phase2_preserves_boundary, hcs1, phase1_char L.size L.cells i hi,
        if_neg (by rw [hat]; exact Bool.false_ne_true)]
    exact hnb
  rw [phase3_char L.env rnd L.size cs2 i hi,
      if_neg (by rw [h2at]; exact Bool.false_ne_true),
      step_three_cell_attached, h2at, h2bd, Bool.false_and, Bool.false_or]

/-! ### The barrier-synchronous reference update (modelled from the spec) -/

/-- Modelled from the spec: synchronous Phase 1 — every cell's boundary,
attached-neighbor snapshot and diffusion candidate are computed from the
state at the end of the previous iteration and committed at the phase
boundary. -/
def syncPhase1 (size : Nat) (cs : Cells) : Cells := fun i =>
  if i ∈ idxList size then
    (if (cs i).attached then cs i else step_one_val size cs i)
  else cs i

/-- Modelled from the spec: synchronous Phase 2 — every cell commits its
Phase-1 candidate, freezes, evaluates the attachment predicate and melts,
reading neighbor state only from the Phase-1 commit (so a neighbor's
diffusive mass is its pre-iteration value, never one advanced this
iteration). -/
def syncPhase2 (env : CrystalEnvironment) (size : Nat) (cs : Cells) : Cells := fun i =>
  if i ∈ idxList size then
    (if (cs i).attached then cs i else step_two_val env size cs i)
  else cs i

/-- Modelled from the spec: synchronous Phase 3 — commit attachment and
apply noise, per cell. -/
def syncPhase3 (env : CrystalEnvironment) (rnd : Int → Bool) (size : Nat) (cs : Cells) :
    Cells := fun i =>
  if i ∈ idxList size then
    (if (cs i).attached then cs i else step_three_cell env (rnd i) (cs i))
  else cs i

/-- Modelled from the spec: the synchronous reference update — three phases,
each phase computing every cell from the state committed at the previous
phase boundary. -/
def stepSync (L : CrystalLattice) (rnd : Int → Bool) : CrystalLattice :=
  let cs1 := syncPhase1 L.size L.cells
  let cs2 := syncPhase2 L.env L.size cs1
  let cs3 := syncPhase3 L.env rnd L.size cs2
  let it := L.iteration + 1
  { L with cells := cs3, iteration := it,
           env := L.env.step L.curves it }

/-- The sequential phase-one loop is equal to the synchronous phase one. -/
theorem phase1_eq_sync (size : Nat) (cs : Cells) :
    phaseFold size (step_one size) cs = syncPhase1 size cs := by
  funext i
  unfold syncPhase1
  by_cases hi : i ∈ idxList size
  · rw [if_pos hi, phase1_char size cs i hi]
  · rw [if_neg hi, phaseFold_eq_foldl,
        foldl_phaseStep_notMem _ (step_one_writes_local size) _ _ _ hi]

/-- The sequential phase-three loop is equal to the synchronous phase three. -/
theorem phase3_eq_sync (env : CrystalEnvironment) (rnd : Int → Bool) (size : Nat) (cs : Cells) :
    phaseFold size (step_three env rnd) cs = syncPhase3 env rnd size cs := by
  funext i
  unfold syncPhase3
  by_cases hi : i ∈ idxList size
  · rw [if_pos hi, phase3_char env rnd size cs i hi]
  · rw [if_neg hi, phaseFold_eq_foldl,
        foldl_phaseStep_notMem _ (step_three_writes_local env rnd) _ _ _ hi]

/-- Claim C1: for every cell, `attachment_step` returns true iff the cell is
a boundary cell and, with n its attached-neighbor count: n ≤ 2 and
boundary mass strictly above beta; or n = 3 and (boundary mass at least 1,
or the summed diffusive mass of the cell and all its neighbors is below
theta and boundary mass at least alpha); or n ≥ 4.  Non-boundary cells
always get false. -/
theorem C1_attachment_rule (env : CrystalEnvironment) (size : Nat) (cs : Cells) (i : Int) :
    attachment_step env size cs i = true ↔
      ((cs i).boundary = true ∧
        (((cs i).attached_neighbors.length ≤ 2 ∧ env.beta < (cs i).boundary_mass) ∨
         ((cs i).attached_neighbors.length = 3 ∧
           (1 ≤ (cs i).boundary_mass ∨
             ((cs i).diffusive_mass
                + ((get_neighbors size i).map (fun j => (cs j).diffusive_mass)).sum
                  < env.theta
               ∧ env.alpha ≤ (cs i).boundary_mass))) ∨
         4 ≤ (cs i).attached_neighbors.length)) := by
  simp only [attachment_step]
  rw [foldl_add_eq]
  split_ifs with h1 h2 h3 h4 h5 h6 h7 <;> simp_all
  omega

/-- Splitting a phase fold at an index that does not recur later: the
cell's final value is produced by its own turn. -/
theorem foldl_phaseStep_split (f : Cells → Int → Cells)
    (hf : ∀ a i j, j ≠ i → f a i j = a j)
    (l1 l2 : List Int) (i : Int) (h2 : i ∉ l2) (a : Cells) :
    ((l1 ++ i :: l2).foldl (phaseStep f) a) i
      = (phaseStep f (l1.foldl (phaseStep f) a) i) i := by
  rw [List.foldl_append, List.foldl_cons]
  exact foldl_phaseStep_notMem f hf l2 _ i h2

/-! ### Concrete fixtures -/

/-- An attached cell with all masses zero. -/
def attCellZ : SnowflakeCell :=
  { diffusive_mass := 0, boundary_mass := 0, crystal_mass := 0,
    attached := true, boundary := false, attached_neighbors := [],
    age := 0, next_dm := 0, attachment_flag := false }

/-- An unattached cell with the given diffusive and boundary mass. -/
def plainCell (dm bm : ℚ) : SnowflakeCell :=
  { diffusive_mass := dm, boundary_mass := bm, crystal_mass := 0,
    attached := false, boundary := false, attached_neighbors := [],
    age := 0, next_dm := 0, attachment_flag := false }

/-- A noise oracle (models every `random.random()` draw landing ≥ 0.5). -/
def rtrue : Int → Bool := fun _ => true

/-- A per-iteration noise oracle stream. -/
def rstream : Nat → Int → Bool := fun _ _ => true

/-- A 3×3 lattice whose center cell (flat index 4) is the only unattached
cell: it has six attached neighbors, so the n ≥ 4 rule attaches it on the
next step. -/
def L5x : CrystalLattice :=
  { size := 3, iteration := 1, margin := 17/20, max_steps := 0,
    env := defaultEnv, curves := none,
    cells := fun i => if i = 4 then plainCell 0 0 else attCellZ }

/-! ### Claim C5 -/

/-- Claim C5 counterexample: after one `step()` on `L5x`, the center cell has
attached and still carries a true boundary flag, so
`boundary == (not attached and any neighbor attached)` fails: the right-hand
side is false for an attached cell.  The phase loops skip attached cells, so
`update_boundary` never clears the stale flag. -/
theorem C5_counterexample :
    ((L5x.step rtrue).cells 4).attached = true ∧
    ((L5x.step rtrue).cells 4).boundary = true ∧
    ¬(((L5x.step rtrue).cells 4).boundary
        = (!((L5x.step rtrue).cells 4).attached
            && (get_neighbors L5x.size 4).any (fun j => ((L5x.step rtrue).cells j).attached))) := by
  refine ⟨by decide, by decide, ?_⟩
  decide

/-- Claim C5 (amended): after every `step()`, every cell that was unattached
at the start of the iteration has
`boundary == (not attached and any neighbor attached)` evaluated on the
state at the start of the iteration (which is what `update_boundary`
computes in phase one); a cell that becomes attached during the iteration
keeps its stale true boundary flag. -/
theorem C5_boundary_recomputed (L : CrystalLattice) (rnd : Int → Bool) (i : Int)
    (hi : i ∈ idxList L.size) (hat : (L.cells i).attached = false) :
    ((L.step rnd).cells i).boundary = update_boundary L.size L.cells i :=
  step_cells_boundary_char L rnd i hi hat

/-- Witness for the amended C5 at a concrete input. -/
theorem C5_boundary_recomputed_witness :
    (4 : Int) ∈ idxList L5x.size ∧ (L5x.cells 4).attached = false ∧
    ((L5x.step rtrue).cells 4).boundary = update_boundary L5x.size L5x.cells 4 :=
  ⟨by decide, by decide, C5_boundary_recomputed L5x rtrue 4 (by decide) (by decide)⟩

/-! ### Claim C6 -/

/-- Claim C6: attachment is terminal and monotonic.  If a cell was
unattached and one `step()` leaves it attached, then its boundary mass is
zero at that moment, and every further `step()` leaves the whole cell record
(masses, age, flags) unchanged — in particular it stays attached with zero
boundary mass forever. -/
theorem C6_attachment_terminal (L : CrystalLattice) (rnd : Int → Bool)
    (rnds : Nat → Int → Bool) (k : Nat) (i : Int)
    (h1 : (L.cells i).attached = false)
    (h2 : ((L.step rnd).cells i).attached = true) :
    ((L.step rnd).cells i).boundary_mass = 0 ∧
    (stepMany rnds k (L.step rnd)).cells i = (L.step rnd).cells i := by
  have hi : i ∈ idxList L.size := by
    by_contra hni
    rw [step_cells_out_of_range L rnd i hni, h1] at h2
    exact Bool.false_ne_true h2
  refine ⟨?_, stepMany_cells_frozen rnds k _ i h2⟩
  revert h2
  show ((phaseFold L.size (step_three L.env rnd)
    (phaseFold L.size (step_two L.env L.size)
      (phaseFold L.size (step_one L.size) L.cells))) i).attached = true →
    ((phaseFold L.size (step_three L.env rnd)
      (phaseFold L.size (step_two L.env L.size)
        (phaseFold L.size (step_one L.size) L.cells))) i).boundary_mass = 0
  set cs2 := phaseFold L.size (step_two L.env L.size)
      (phaseFold L.size (step_one L.size) L.cells) with hcs2
  have h2at : (cs2 i).attached = false := by
    rw [hcs2, phase2_preserves_attached, phase1_preserves_attached]
    exact h1
  rw [phase3_char L.env rnd L.size cs2 i hi, if_neg (by rw [h2at]; exact Bool.false_ne_true),
      step_three_cell_attached, step_three_cell_bm, h2at, Bool.or_false]
  intro hflag
  rw [if_pos hflag]

/-- Witness for C6 at a concrete input: the center of `L5x` attaches on the
first step and is frozen afterwards. -/
theorem C6_attachment_terminal_witness :
    (L5x.cells 4).attached = false ∧ ((L5x.step rtrue).cells 4).attached = true ∧
    ((L5x.step rtrue).cells 4).boundary_mass = 0 ∧
    (stepMany rstream 2 (L5x.step rtrue)).cells 4 = (L5x.step rtrue).cells 4 := by
  have h := C6_attachment_terminal L5x rtrue rstream 2 4 (by decide) (by decide)
  exact ⟨by decide, by decide, h.1, h.2⟩

/-! ### Claim C2 -/

/-- Environment for the C2 counterexample: beta out of reach, theta = 1/20,
alpha = 0, and no freezing loss, melting, or noise. -/
def env2x : CrystalEnvironment :=
  { beta := 100, theta := 1/20, alpha := 0, kappa := 0, mu := 0,
    upsilon := 0, sigma := 0, gamma := 0 }

/-- The 4×4 lattice for the C2 counterexample.  Cells (1,1), (2,0), (2,1)
(flat indices 5, 2, 6) are attached; cell (1,0) (index 1) is a boundary
cell with exactly three attached neighbors and boundary mass 1/2; its
fourth neighbor (0,0) (index 0) is a boundary cell processed earlier in
the phase-two loop, whose diffusive mass the loop zeroes by freezing. -/
def L2x : CrystalLattice :=
  { size := 4, iteration := 1, margin := 17/20, max_steps := 0,
    env := env2x, curves := none,
    cells := fun i =>
      if i = 5 ∨ i = 2 ∨ i = 6 then attCellZ
      else if i = 1 then plainCell (1/10) (1/2)
      else plainCell (1/10) 0 }

/-- Claim C2 counterexample: on `L2x`, the sequential `step()` attaches cell
1 but the barrier-synchronous reference does not, because cell 1's phase-two
summed-diffusion read observes neighbor 0's diffusive mass already zeroed by
neighbor 0's own phase-two freezing earlier in the same loop, while the
reference reads the pre-iteration value. -/
theorem C2_counterexample :
    ((L2x.step rtrue).cells 1).attached = true ∧
    ((stepSync L2x rtrue).cells 1).attached = false ∧
    (L2x.step rtrue).cells 1 ≠ (stepSync L2x rtrue).cells 1 := by
  have h1 : get_neighbors 4 1 = [5, 0, 2, 6] := by decide
  have h0 : get_neighbors 4 0 = [4, 1, 5] := by decide
  have hcode : ((L2x.step rtrue).cells 1).attached = true := by
    have hsplit : idxList 4
        = [0] ++ 1 :: [2, 3, 4, 5, 6, 7, 8, 9, 10, 11, 12, 13, 14, 15] := by decide
    show ((phaseFold 4 (step_three env2x rtrue)
      (phaseFold 4 (step_two env2x 4) (phaseFold 4 (step_one 4) L2x.cells))) 1).attached = true
    set cs1 := phaseFold 4 (step_one 4) L2x.cells with hcs1
    set cs2 := phaseFold 4 (step_two env2x 4) cs1 with hcs2
    have h2at : (cs2 1).attached = false := by
      rw [hcs2, phase2_preserves_attached, hcs1, phase1_preserves_attached]; decide
    rw [phase3_char env2x rtrue 4 cs2 1 (by decide),
        if_neg (by rw [h2at]; exact Bool.false_ne_true),
        step_three_cell_attached, h2at, Bool.or_false]
    have hcell1 : cs1 1 = step_one_val 4 L2x.cells 1 := by
      rw [hcs1, phase1_char 4 L2x.cells 1 (by decide), if_neg (by decide)]
    have hcell0 : cs1 0 = step_one_val 4 L2x.cells 0 := by
      rw [hcs1, phase1_char 4 L2x.cells 0 (by decide), if_neg (by decide)]
    have hdec : cs2 1 = step_two_val env2x 4 (setC cs1 0 (step_two_val env2x 4 cs1 0)) 1 := by
      rw [hcs2, phaseFold_eq_foldl, hsplit,
          foldl_phaseStep_split (step_two env2x 4) (step_two_writes_local env2x 4)
            [0] _ 1 (by decide) cs1]
      have hA : (([0] : List Int)).foldl (phaseStep (step_two env2x 4)) cs1
          = step_two env2x 4 cs1 0 := by
        rw [List.foldl_cons, List.foldl_nil]
        unfold phaseStep
        rw [if_neg (by rw [hcell0]; decide)]
      rw [hA]
      show phaseStep (step_two env2x 4) (step_two env2x 4 cs1 0) 1 1 = _
      unfold phaseStep
      rw [if_neg (by
        rw [step_two_writes_local env2x 4 cs1 0 1 (by decide), hcell1]; decide)]
      show setC _ 1 _ 1 = _
      unfold setC
      rw [if_pos rfl]
      rfl
    rw [hdec]
    have hB5 : (setC cs1 0 (step_two_val env2x 4 cs1 0)) 5 = cs1 5 := by
      unfold setC; rw [if_neg (by decide)]
    have hB2 : (setC cs1 0 (step_two_val env2x 4 cs1 0)) 2 = cs1 2 := by
      unfold setC; rw [if_neg (by decide)]
    have hB6 : (setC cs1 0 (step_two_val env2x 4 cs1 0)) 6 = cs1 6 := by
      unfold setC; rw [if_neg (by decide)]
    have hB1 : (setC cs1 0 (step_two_val env2x 4 cs1 0)) 1 = cs1 1 := by
      unfold setC; rw [if_neg (by decide)]
    have hB0 : (setC cs1 0 (step_two_val env2x 4 cs1 0)) 0 = step_two_val env2x 4 cs1 0 := by
      unfold setC; rw [if_pos rfl]
    have hfr5 : cs1 5 = L2x.cells 5 := by
      rw [hcs1, phase1_char 4 L2x.cells 5 (by decide), if_pos (by decide)]
    have hfr2 : cs1 2 = L2x.cells 2 := by
      rw [hcs1, phase1_char 4 L2x.cells 2 (by decide), if_pos (by decide)]
    have hfr6 : cs1 6 = L2x.cells 6 := by
      rw [hcs1, phase1_char 4 L2x.cells 6 (by decide), if_pos (by decide)]
    simp +decide [step_two_val, step_one_val, attachment_step, freezing_step,
      melting_step, setC, env2x, L2x, attCellZ, plainCell, h1, h0, hB5, hB2, hB6, hB1, hB0,
      hcell1, hcell0, hfr5, hfr2, hfr6, diffusion_calc, update_boundary]
    norm_num
  have hsync : ((stepSync L2x rtrue).cells 1).attached = false := by
    simp +decide [stepSync, syncPhase3, syncPhase2, syncPhase1, step_three_cell,
      step_two_val, step_one_val, attachment_step, freezing_step, melting_step,
      noise_step, attach, diffusion_calc, update_boundary, setC, L2x, env2x,
      attCellZ, plainCell, rtrue, h1, h0]
    norm_num
  refine ⟨hcode, hsync, fun he => ?_⟩
  rw [he] at hcode
  rw [hcode] at hsync
  exact absurd hsync (by simp)

/-- Claim C2 (amended): `step()` is not equal to the barrier-synchronous
reference in general (see `C2_counterexample`), but its Phase 1 and Phase 3
loops are: every Phase-1 diffusion candidate is computed only from diffusive
masses as they stood at the end of the previous iteration, and attachment is
committed only in Phase 3.  Only the Phase-2 loop remains sequential: one
`step()` equals synchronous Phase 1, then the sequential Phase-2 loop, then
synchronous Phase 3. -/
theorem C2_phases_one_three_sync (L : CrystalLattice) (rnd : Int → Bool) :
    (L.step rnd).cells
      = syncPhase3 L.env rnd L.size
          (phaseFold L.size (step_two L.env L.size) (syncPhase1 L.size L.cells)) := by
  show phaseFold L.size (step_three L.env rnd)
      (phaseFold L.size (step_two L.env L.size)
        (phaseFold L.size (step_one L.size) L.cells)) = _
  rw [phase1_eq_sync, phase3_eq_sync]

/-! ### Claim C7: mass non-negativity -/

/-- All three mass fields of every cell are non-negative. -/
def massOK (cs : Cells) : Prop :=
  ∀ i : Int, 0 ≤ (cs i).diffusive_mass ∧ 0 ≤ (cs i).boundary_mass ∧ 0 ≤ (cs i).crystal_mass

/-- The rate parameters relevant to mass signs lie in [0, 1]. -/
def envOK (env : CrystalEnvironment) : Prop :=
  0 ≤ env.kappa ∧ env.kappa ≤ 1 ∧ 0 ≤ env.mu ∧ env.mu ≤ 1 ∧
  0 ≤ env.upsilon ∧ env.upsilon ≤ 1 ∧ 0 ≤ env.sigma ∧ env.sigma ≤ 1

/-- Same bounds for a row of curve values. -/
def curveRowOK (r : CurveRow) : Prop :=
  0 ≤ r.kappa ∧ r.kappa ≤ 1 ∧ 0 ≤ r.mu ∧ r.mu ≤ 1 ∧
  0 ≤ r.upsilon ∧ r.upsilon ≤ 1 ∧ 0 ≤ r.sigma ∧ r.sigma ≤ 1

/-- Every row an attached curve source can ever produce satisfies the
bounds. -/
def curvesOK (o : Option (Nat → CurveRow)) : Prop :=
  ∀ c x, o = some c → curveRowOK (c x)

theorem envOK_step (env : CrystalEnvironment) (curves : Option (Nat → CurveRow)) (x : Nat)
    (hEnv : envOK env) (hCur : curvesOK curves) : envOK (env.step curves x) := by
  unfold CrystalEnvironment.step
  match curves with
  | none => exact hEnv
  | some c => exact hCur c x rfl

/-- A fold invariant that each in-list application preserves is preserved by
the fold. -/
theorem foldl_inv_mem (P : Cells → Prop) (g : Cells → Int → Cells) :
    ∀ (l : List Int) (a : Cells), (∀ b i, i ∈ l → P b → P (g b i)) → P a →
      P (l.foldl g a) := by
  intro l
  induction l with
  | nil => intro a _ h; exact h
  | cons hd tl ih =>
      intro a hg h
      rw [List.foldl_cons]
      exact ih _ (fun b i hi => hg b i (List.mem_cons_of_mem hd hi))
        (hg a hd (List.mem_cons_self hd tl) h)

theorem freezing_masses_nonneg (env : CrystalEnvironment) (c : SnowflakeCell)
    (hEnv : envOK env)
    (h : 0 ≤ c.diffusive_mass ∧ 0 ≤ c.boundary_mass ∧ 0 ≤ c.crystal_mass) :
    0 ≤ (freezing_step env c).diffusive_mass ∧ 0 ≤ (freezing_step env c).boundary_mass ∧
    0 ≤ (freezing_step env c).crystal_mass := by
  obtain ⟨hκ0, hκ1, _⟩ := hEnv
  unfold freezing_step
  split
  · exact h
  · refine ⟨le_refl 0, ?_, ?_⟩
    · exact add_nonneg h.2.1 (mul_nonneg (by linarith) h.1)
    · exact add_nonneg h.2.2 (mul_nonneg hκ0 h.1)

theorem melting_masses_nonneg (env : CrystalEnvironment) (c : SnowflakeCell)
    (hEnv : envOK env)
    (h : 0 ≤ c.diffusive_mass ∧ 0 ≤ c.boundary_mass ∧ 0 ≤ c.crystal_mass) :
    0 ≤ (melting_step env c).diffusive_mass ∧ 0 ≤ (melting_step env c).boundary_mass ∧
    0 ≤ (melting_step env c).crystal_mass := by
  obtain ⟨_, _, hμ0, hμ1, hυ0, hυ1, _⟩ := hEnv
  unfold melting_step
  split
  · exact h
  · refine ⟨?_, ?_, ?_⟩
    · exact add_nonneg (add_nonneg h.1 (mul_nonneg hμ0 h.2.1)) (mul_nonneg hυ0 h.2.2)
    · exact mul_nonneg (by linarith) h.2.1
    · exact mul_nonneg (by linarith) h.2.2

theorem noise_masses_nonneg (env : CrystalEnvironment) (b : Bool) (c : SnowflakeCell)
    (hEnv : envOK env)
    (h : 0 ≤ c.diffusive_mass ∧ 0 ≤ c.boundary_mass ∧ 0 ≤ c.crystal_mass) :
    0 ≤ (noise_step env b c).diffusive_mass ∧ 0 ≤ (noise_step env b c).boundary_mass ∧
    0 ≤ (noise_step env b c).crystal_mass := by
  obtain ⟨_, _, _, _, _, _, hσ0, hσ1⟩ := hEnv
  unfold noise_step
  split
  · exact h
  · split
    · exact ⟨mul_nonneg (by linarith) h.1, h.2.1, h.2.2⟩
    · exact ⟨mul_nonneg (by linarith) h.1, h.2.1, h.2.2⟩

theorem attach_masses_nonneg (c : SnowflakeCell)
    (h : 0 ≤ c.diffusive_mass ∧ 0 ≤ c.boundary_mass ∧ 0 ≤ c.crystal_mass) :
    0 ≤ (attach 0 c).diffusive_mass ∧ 0 ≤ (attach 0 c).boundary_mass ∧
    0 ≤ (attach 0 c).crystal_mass := by
  unfold attach
  exact ⟨h.1, le_refl 0, by have := add_nonneg h.2.1 h.2.2; simpa using this⟩

/-- The diffusion candidate is a non-negative average of non-negative
masses. -/
theorem diffusion_calc_nonneg (size : Nat) (cs : Cells) (i : Int) (hM : massOK cs) :
    0 ≤ (diffusion_calc size cs i).1 := by
  simp only [diffusion_calc]
  split
  · exact (hM i).1
  · apply div_nonneg
    · rw [list_foldl_congr
            (fun acc j => if (cs j).attached = true then acc + (cs i).diffusive_mass
                          else acc + (cs j).diffusive_mass)
            (fun acc j => acc
              + (if (cs j).attached = true then (cs i).diffusive_mass
                 else (cs j).diffusive_mass))
            _ (fun acc x _ => by dsimp only; split <;> rfl), foldl_add_eq]
      apply add_nonneg (hM i).1
      apply List.sum_nonneg
      intro q hq
      rw [List.mem_map] at hq
      obtain ⟨j, _, rfl⟩ := hq
      split
      · exact (hM i).1
      · exact (hM j).1
    · positivity

/-- Phase one writes no masses. -/
theorem phase1_preserves_dm (size : Nat) (cs : Cells) (j : Int) :
    ((phaseFold size (step_one size) cs) j).diffusive_mass = (cs j).diffusive_mass := by
  rw [phaseFold_eq_foldl]
  exact foldl_preserves_proj _ (step_one_writes_local size)
    (fun c => c.diffusive_mass) (fun a i => by simp [step_one, setC, step_one_val_dm]) _ cs j

theorem phase1_preserves_bm (size : Nat) (cs : Cells) (j : Int) :
    ((phaseFold size (step_one size) cs) j).boundary_mass = (cs j).boundary_mass := by
  rw [phaseFold_eq_foldl]
  exact foldl_preserves_proj _ (step_one_writes_local size)
    (fun c => c.boundary_mass) (fun a i => by simp [step_one, setC, step_one_val_bm]) _ cs j

theorem phase1_preserves_cm (size : Nat) (cs : Cells) (j : Int) :
    ((phaseFold size (step_one size) cs) j).crystal_mass = (cs j).crystal_mass := by
  rw [phaseFold_eq_foldl]
  exact foldl_preserves_proj _ (step_one_writes_local size)
    (fun c => c.crystal_mass) (fun a i => by simp [step_one, setC, step_one_val_cm]) _ cs j

theorem step_two_val_masses_nonneg (env : CrystalEnvironment) (size : Nat) (b : Cells)
    (i : Int) (hEnv : envOK env)
    (hM : 0 ≤ (b i).boundary_mass ∧ 0 ≤ (b i).crystal_mass)
    (hnx : 0 ≤ (b i).next_dm) :
    0 ≤ (step_two_val env size b i).diffusive_mass ∧
    0 ≤ (step_two_val env size b i).boundary_mass ∧
    0 ≤ (step_two_val env size b i).crystal_mass := by
  simp only [step_two_val]
  refine melting_masses_nonneg env _ hEnv ?_
  exact freezing_masses_nonneg env _ hEnv ⟨hnx, hM.1, hM.2⟩

theorem step_three_cell_masses_nonneg (env : CrystalEnvironment) (b : Bool)
    (c : SnowflakeCell) (hEnv : envOK env)
    (h : 0 ≤ c.diffusive_mass ∧ 0 ≤ c.boundary_mass ∧ 0 ≤ c.crystal_mass) :
    0 ≤ (step_three_cell env b c).diffusive_mass ∧
    0 ≤ (step_three_cell env b c).boundary_mass ∧
    0 ≤ (step_three_cell env b c).crystal_mass := by
  simp only [step_three_cell]
  refine noise_masses_nonneg env b _ hEnv ?_
  split
  · exact attach_masses_nonneg c h
  · exact h

/-- The phase-two loop keeps all masses non-negative, given non-negative
committed candidates. -/
theorem phase2_massOK (env : CrystalEnvironment) (size : Nat) (cs1 : Cells)
    (hEnv : envOK env) (hM : massOK cs1)
    (hnext : ∀ j ∈ idxList size, (cs1 j).attached = false → 0 ≤ (cs1 j).next_dm) :
    massOK (phaseFold size (step_two env size) cs1) := by
  rw [phaseFold_eq_foldl]
  have h := foldl_inv_mem
    (fun a => massOK a ∧ (∀ j, (a j).attached = (cs1 j).attached) ∧
      (∀ j, (a j).next_dm = (cs1 j).next_dm))
    (phaseStep (step_two env size)) (idxList size) cs1 ?_ ⟨hM, fun _ => rfl, fun _ => rfl⟩
  · exact h.1
  · rintro b i hi ⟨hMb, hat, hnx⟩
    unfold phaseStep
    split
    · exact ⟨hMb, hat, hnx⟩
    · rename_i hguard
      have hbi : (b i).attached = false := by
        revert hguard; cases (b i).attached <;> simp
      refine ⟨?_, ?_, ?_⟩
      · intro j
        show 0 ≤ (setC b i (step_two_val env size b i) j).diffusive_mass ∧
             0 ≤ (setC b i (step_two_val env size b i) j).boundary_mass ∧
             0 ≤ (setC b i (step_two_val env size b i) j).crystal_mass
        unfold setC
        by_cases hj : j = i
        · rw [if_pos hj]
          exact step_two_val_masses_nonneg env size b i hEnv ⟨(hMb i).2.1, (hMb i).2.2⟩
            (by rw [hnx i]; exact hnext i hi (by rw [← hat i]; exact hbi))
        · rw [if_neg hj]
          exact hMb j
      · intro j
        show (setC b i (step_two_val env size b i) j).attached = _
        unfold setC
        by_cases hj : j = i
        · rw [if_pos hj, step_two_val_attached, hj]
          exact hat i
        · rw [if_neg hj]
          exact hat j
      · intro j
        show (setC b i (step_two_val env size b i) j).next_dm = _
        unfold setC
        by_cases hj : j = i
        · rw [if_pos hj, step_two_val_next_dm, hj]
          exact hnx i
        · rw [if_neg hj]
          exact hnx j

/-- The phase-three loop keeps all masses non-negative. -/
theorem phase3_massOK (env : CrystalEnvironment) (rnd : Int → Bool) (size : Nat)
    (cs2 : Cells) (hEnv : envOK env) (hM : massOK cs2) :
    massOK (phaseFold size (step_three env rnd) cs2) := by
  rw [phaseFold_eq_foldl]
  refine foldl_inv_mem massOK (phaseStep (step_three env rnd)) (idxList size) cs2 ?_ hM
  intro b i _ hMb
  unfold phaseStep
  split
  · exact hMb
  · intro j
    show 0 ≤ (setC b i (step_three_cell env (rnd i) (b i)) j).diffusive_mass ∧
         0 ≤ (setC b i (step_three_cell env (rnd i) (b i)) j).boundary_mass ∧
         0 ≤ (setC b i (step_three_cell env (rnd i) (b i)) j).crystal_mass
    unfold setC
    by_cases hj : j = i
    · rw [if_pos hj]
      exact step_three_cell_masses_nonneg env (rnd i) (b i) hEnv (hMb i)
    · rw [if_neg hj]
      exact hMb j

/-- One `step()` keeps all masses non-negative. -/
theorem step_massOK (L : CrystalLattice) (rnd : Int → Bool)
    (hEnv : envOK L.env) (hM : massOK L.cells) : massOK ((L.step rnd).cells) := by
  show massOK (phaseFold L.size (step_three L.env rnd)
    (phaseFold L.size (step_two L.env L.size)
      (phaseFold L.size (step_one L.size) L.cells)))
  have hM1 : massOK (phaseFold L.size (step_one L.size) L.cells) := by
    intro j
    rw [phase1_preserves_dm, phase1_preserves_bm, phase1_preserves_cm]
    exact hM j
  have hnext : ∀ j ∈ idxList L.size,
      ((phaseFold L.size (step_one L.size) L.cells) j).attached = false →
      0 ≤ ((phaseFold L.size (step_one L.size) L.cells) j).next_dm := by
    intro j hj hat
    rw [phase1_char L.size L.cells j hj]
    rw [phase1_preserves_attached] at hat
    rw [if_neg (by rw [hat]; exact Bool.false_ne_true)]
    show 0 ≤ (diffusion_calc L.size L.cells j).1
    exact diffusion_calc_nonneg L.size L.cells j hM
  exact phase3_massOK L.env rnd L.size _ hEnv
    (phase2_massOK L.env L.size _ hEnv hM1 hnext)

/-- Claim C7: for every cell at every iteration, the diffusive, boundary and
crystal masses stay non-negative, provided the environment parameters
kappa, mu, upsilon, sigma (and every value the curve source can feed them)
lie in [0, 1]. -/
theorem C7_mass_nonneg (L : CrystalLattice) (rnds : Nat → Int → Bool) (k : Nat)
    (hEnv : envOK L.env) (hCur : curvesOK L.curves) (hM : massOK L.cells) :
    massOK ((stepMany rnds k L).cells) := by
  induction k generalizing L with
  | zero => exact hM
  | succ n ih =>
      show massOK ((stepMany rnds n (L.step (rnds L.iteration))).cells)
      refine ih (L.step (rnds L.iteration)) ?_ ?_ ?_
      · exact envOK_step L.env L.curves (L.iteration + 1) hEnv hCur
      · exact hCur
      · exact step_massOK L (rnds L.iteration) hEnv hM

/-- Witness for C7 at a concrete input. -/
theorem C7_mass_nonneg_witness :
    envOK L5x.env ∧ massOK L5x.cells ∧ massOK ((stepMany rstream 1 L5x).cells) := by
  have hEnv : envOK L5x.env := by
    show envOK defaultEnv
    unfold envOK defaultEnv
    norm_num
  have hM : massOK L5x.cells := by
    intro i
    show 0 ≤ ((if i = 4 then plainCell 0 0 else attCellZ) : SnowflakeCell).diffusive_mass ∧
         0 ≤ ((if i = 4 then plainCell 0 0 else attCellZ) : SnowflakeCell).boundary_mass ∧
         0 ≤ ((if i = 4 then plainCell 0 0 else attCellZ) : SnowflakeCell).crystal_mass
    by_cases hi : i = 4
    · rw [if_pos hi]
      exact ⟨le_refl 0, le_refl 0, le_refl 0⟩
    · rw [if_neg hi]
      exact ⟨le_refl 0, le_refl 0, le_refl 0⟩
  exact ⟨hEnv, hM, C7_mass_nonneg L5x rstream 1 hEnv (fun c x h => by cases h) hM⟩

/-! ### Claim C8: mass conservation -/

/-- Total mass of one cell. -/
def massTotal (c : SnowflakeCell) : ℚ :=
  c.diffusive_mass + c.boundary_mass + c.crystal_mass

/-- Total mass over the whole lattice. -/
def latticeMass (L : CrystalLattice) : ℚ :=
  ((idxList L.size).map (fun i => massTotal (L.cells i))).sum

/-- A non-boundary cell's phase two only commits its diffusion candidate
and records a false attachment flag. -/
theorem step_two_val_not_boundary (env : CrystalEnvironment) (size : Nat) (X : Cells)
    (i : Int) (h : (X i).boundary = false) :
    step_two_val env size X i
      = { X i with diffusive_mass := (X i).next_dm, attachment_flag := false } := by
  rcases hXi : X i with ⟨d, bm, cm, att, bd, an, ag, nd, fl⟩
  rw [hXi] at h
  simp only at h
  subst h
  simp [step_two_val, freezing_step, melting_step, attachment_step, setC, hXi]

/-- Phase two leaves a cell that computed a false boundary in phase one
with only the diffusion commit. -/
theorem phase2_fold_char_own (env : CrystalEnvironment) (size : Nat) (cs : Cells) :
    ∀ (l : List Int), l.Nodup → ∀ (a : Cells),
      ∀ i ∈ l, a i = cs i → (cs i).boundary = false →
      (l.foldl (phaseStep (step_two env size)) a) i
        = if (cs i).attached then cs i
          else { cs i with diffusive_mass := (cs i).next_dm, attachment_flag := false } := by
  intro l
  induction l with
  | nil => intro _ a i hi; exact absurd hi (List.not_mem_nil i)
  | cons hd tl ih =>
      intro hnd a i hi hacs hbd
      have hndtl : tl.Nodup := (List.nodup_cons.mp hnd).2
      have hhdtl : hd ∉ tl := (List.nodup_cons.mp hnd).1
      rw [List.foldl_cons]
      rcases List.mem_cons.mp hi with heq | htl
      · subst heq
        by_cases hat : (a i).attached = true
        · have hskip : phaseStep (step_two env size) a i = a := by
            unfold phaseStep; rw [if_pos hat]
          rw [hskip, foldl_phaseStep_notMem _ (step_two_writes_local env size) _ _ _ hhdtl,
              hacs]
          have hcs : (cs i).attached = true := by rw [← hacs]; exact hat
          rw [if_pos hcs]
        · have hproc : phaseStep (step_two env size) a i = step_two env size a i := by
            unfold phaseStep; rw [if_neg hat]
          rw [hproc]
          have hset : step_two env size a i i = step_two_val env size a i := by
            simp [step_two, setC]
          rw [foldl_phaseStep_notMem _ (step_two_writes_local env size) _ _ _ hhdtl, hset,
              step_two_val_not_boundary env size a i (by rw [hacs]; exact hbd), hacs]
          have hcs : ¬((cs i).attached = true) := by rw [← hacs]; exact hat
          rw [if_neg hcs]
      · have hne : hd ≠ i := fun h => hhdtl (h ▸ htl)
        have ha' : phaseStep (step_two env size) a hd i = a i :=
          phaseStep_writes_local _ (step_two_writes_local env size) a hd i (fun h => hne h.symm)
        exact ih hndtl _ i htl (by rw [ha']; exact hacs) hbd

/-- The full cell value after one `step()` for a cell that is unattached
with no attached neighbor: only the diffusion commit and noise apply. -/
theorem step_cells_diffusing (L : CrystalLattice) (rnd : Int → Bool) (i : Int)
    (hi : i ∈ idxList L.size) (hat : (L.cells i).attached = false)
    (hnb : update_boundary L.size L.cells i = false) :
    (L.step rnd).cells i
      = noise_step L.env (rnd i)
          { step_one_val L.size L.cells i with
              diffusive_mass := (step_one_val L.size L.cells i).next_dm,
              attachment_flag := false } := by
  show (phaseFold L.size (step_three L.env rnd)
    (phaseFold L.size (step_two L.env L.size)
      (phaseFold L.size (step_one L.size) L.cells))) i = _
  set cs1 := phaseFold L.size (step_one L.size) L.cells with hcs1
  have hc1 : cs1 i = step_one_val L.size L.cells i := by
    rw [hcs1, phase1_char L.size L.cells i hi, if_neg (by rw [hat]; exact Bool.false_ne_true)]
  have h1bd : (cs1 i).boundary = false := by
    rw [hc1]
    show update_boundary L.size L.cells i = false
    exact hnb
  have h1at : (cs1 i).attached = false := by
    rw [hc1, step_one_val_attached]
    exact hat
  have hc2 : (phaseFold L.size (step_two L.env L.size) cs1) i
      = { cs1 i with diffusive_mass := (cs1 i).next_dm, attachment_flag := false } := by
    rw [phaseFold_eq_foldl,
        phase2_fold_char_own L.env L.size cs1 (idxList L.size) (idxList_nodup L.size)
          cs1 i hi rfl h1bd,
        if_neg (by rw [h1at]; exact Bool.false_ne_true)]
  set cs2 := phaseFold L.size (step_two L.env L.size) cs1 with hcs2
  have h2at : (cs2 i).attached = false := by
    rw [hc2]
    show (cs1 i).attached = false
    exact h1at
  rw [phase3_char L.env rnd L.size cs2 i hi,
      if_neg (by rw [h2at]; exact Bool.false_ne_true), hc2, hc1]
  rcases step_one_val L.size L.cells i with ⟨d, bm, cm, att, bd, an, ag, nd, fl⟩
  simp [step_three_cell]

/-- Claim C8 (amended): the freezing, melting, and attachment (offset 0)
sub-steps each conserve the cell's total mass exactly; the diffusion
redistribution does not conserve the lattice total in general (see
`C8_counterexample`), and noise perturbs it. -/
theorem C8_local_conservation (env : CrystalEnvironment) (c : SnowflakeCell) :
    massTotal (freezing_step env c) = massTotal c ∧
    massTotal (melting_step env c) = massTotal c ∧
    massTotal (attach 0 c) = massTotal c := by
  rcases c with ⟨d, bm, cm, att, bd, an, ag, nd, fl⟩
  unfold massTotal freezing_step melting_step attach
  refine ⟨?_, ?_, ?_⟩
  · split
    · rfl
    · simp only
      ring
  · split
    · rfl
    · simp only
      ring
  · simp only
    ring

/-- The 2×2 lattice for the C8 counterexample: no attached cells, all mass in
one corner, zero noise. -/
def L8m : CrystalLattice :=
  { size := 2, iteration := 1, margin := 17/20, max_steps := 0,
    env := env2x, curves := none,
    cells := fun i => if i = 0 then plainCell 1 0 else plainCell 0 0 }

/-- Claim C8 counterexample: one `step()` on `L8m` changes the total lattice
mass from 1 to 7/6 although no attachment happens and the noise amplitude is
zero — the diffusion averaging alone does not conserve mass, because edge
cells divide by different neighbor counts. -/
theorem C8_counterexample :
    latticeMass (L8m.step rtrue) = 7/6 ∧ latticeMass L8m = 1 ∧ (7/6 : ℚ) ≠ 1 := by
  have hn0 : get_neighbors 2 0 = [2, 1, 3] := by decide
  have hn1 : get_neighbors 2 1 = [3, 0] := by decide
  have hn2 : get_neighbors 2 2 = [0, 3] := by decide
  have hn3 : get_neighbors 2 3 = [1, 2, 0] := by decide
  have hm0 : massTotal ((L8m.step rtrue).cells 0) = 1/4 := by
    rw [show (L8m.step rtrue).cells 0 = _ from
      step_cells_diffusing L8m rtrue 0 (by decide) (by decide) (by decide)]
    simp +decide [massTotal, noise_step, step_one_val, diffusion_calc,
      update_boundary, env2x, L8m, plainCell, rtrue, hn0]
    norm_num
  have hm1 : massTotal ((L8m.step rtrue).cells 1) = 1/3 := by
    rw [show (L8m.step rtrue).cells 1 = _ from
      step_cells_diffusing L8m rtrue 1 (by decide) (by decide) (by decide)]
    simp +decide [massTotal, noise_step, step_one_val, diffusion_calc,
      update_boundary, env2x, L8m, plainCell, rtrue, hn1]
    norm_num
  have hm2 : massTotal ((L8m.step rtrue).cells 2) = 1/3 := by
    rw [show (L8m.step rtrue).cells 2 = _ from
      step_cells_diffusing L8m rtrue 2 (by decide) (by decide) (by decide)]
    simp +decide [massTotal, noise_step, step_one_val, diffusion_calc,
      update_boundary, env2x, L8m, plainCell, rtrue, hn2]
    norm_num
  have hm3 : massTotal ((L8m.step rtrue).cells 3) = 1/4 := by
    rw [show (L8m.step rtrue).cells 3 = _ from
      step_cells_diffusing L8m rtrue 3 (by decide) (by decide) (by decide)]
    simp +decide [massTotal, noise_step, step_one_val, diffusion_calc,
      update_boundary, env2x, L8m, plainCell, rtrue, hn3]
    norm_num
  have hidx : idxList 2 = [0, 1, 2, 3] := by decide
  refine ⟨?_, ?_, by norm_num⟩
  · show ((idxList 2).map (fun i => massTotal ((L8m.step rtrue).cells i))).sum = 7/6
    rw [hidx]
    simp only [List.map_cons, List.map_nil, List.sum_cons, List.sum_nil]
    rw [hm0, hm1, hm2, hm3]
    norm_num
  · show ((idxList 2).map (fun i => massTotal (L8m.cells i))).sum = 1
    rw [hidx]
    simp only [List.map_cons, List.map_nil, List.sum_cons, List.sum_nil]
    show massTotal (plainCell 1 0) + (massTotal (plainCell 0 0)
      + (massTotal (plainCell 0 0) + (massTotal (plainCell 0 0) + 0))) = 1
    unfold massTotal plainCell
    norm_num

/-! ### Claims C9 and C10: the grow loop -/

theorem step_iteration (L : CrystalLattice) (rnd : Int → Bool) :
    (L.step rnd).iteration = L.iteration + 1 := rfl

theorem step_size (L : CrystalLattice) (rnd : Int → Bool) :
    (L.step rnd).size = L.size := rfl

theorem step_max_steps (L : CrystalLattice) (rnd : Int → Bool) :
    (L.step rnd).max_steps = L.max_steps := rfl

theorem step_margin (L : CrystalLattice) (rnd : Int → Bool) :
    (L.step rnd).margin = L.margin := rfl

theorem growAux_fst_succ (fuel : Nat) (L : CrystalLattice) (rnds : Nat → Int → Bool) :
    (growAux (fuel + 1) L rnds).1
      = if headroom (L.step (rnds L.iteration))
        then (growAux fuel (L.step (rnds L.iteration)) rnds).1
        else L.step (rnds L.iteration) := by
  simp only [growAux]
  split <;> rfl

theorem growAux_trace_succ (fuel : Nat) (L : CrystalLattice) (rnds : Nat → Int → Bool) :
    (growAux (fuel + 1) L rnds).2.1
      = if headroom (L.step (rnds L.iteration))
        then (L.step (rnds L.iteration)).iteration
              :: (growAux fuel (L.step (rnds L.iteration)) rnds).2.1
        else [(L.step (rnds L.iteration)).iteration] := by
  simp only [growAux]
  split <;> rfl

theorem growAux_ok_succ (fuel : Nat) (L : CrystalLattice) (rnds : Nat → Int → Bool) :
    (growAux (fuel + 1) L rnds).2.2
      = if headroom (L.step (rnds L.iteration))
        then (growAux fuel (L.step (rnds L.iteration)) rnds).2.2
        else true := by
  simp only [growAux]
  split <;> rfl

theorem growAux_iteration_ge (fuel : Nat) :
    ∀ (L : CrystalLattice) (rnds : Nat → Int → Bool),
      L.iteration ≤ (growAux fuel L rnds).1.iteration := by
  induction fuel with
  | zero => intro L rnds; exact le_refl _
  | succ f ih =>
      intro L rnds
      rw [growAux_fst_succ]
      by_cases hh : headroom (L.step (rnds L.iteration)) = true
      · rw [if_pos hh]
        have h2 := ih (L.step (rnds L.iteration)) rnds
        rw [step_iteration] at h2
        omega
      · rw [if_neg hh, step_iteration]
        omega

/-- The list of indices passed to `Environment.step` during a run of the
grow loop is exactly the consecutive integers from the starting iteration
plus one up to the final iteration. -/
theorem growAux_trace (fuel : Nat) :
    ∀ (L : CrystalLattice) (rnds : Nat → Int → Bool),
      (growAux fuel L rnds).2.1
        = List.range' (L.iteration + 1)
            ((growAux fuel L rnds).1.iteration - L.iteration) := by
  induction fuel with
  | zero => intro L rnds; simp [growAux]
  | succ f ih =>
      intro L rnds
      rw [growAux_trace_succ, growAux_fst_succ]
      by_cases hh : headroom (L.step (rnds L.iteration)) = true
      · rw [if_pos hh, if_pos hh, step_iteration, ih (L.step (rnds L.iteration)) rnds,
            step_iteration]
        have hge := growAux_iteration_ge f (L.step (rnds L.iteration)) rnds
        rw [step_iteration] at hge
        have : (growAux f (L.step (rnds L.iteration)) rnds).1.iteration - L.iteration
            = ((growAux f (L.step (rnds L.iteration)) rnds).1.iteration - (L.iteration + 1)) + 1 := by
          omega
        rw [this, List.range'_succ]
      · rw [if_neg hh, if_neg hh, step_iteration]
        simp

theorem growAux_completes (fuel : Nat) :
    ∀ (L : CrystalLattice) (rnds : Nat → Int → Bool),
      L.max_steps ≠ 0 → 1 ≤ fuel → L.max_steps ≤ L.iteration + fuel →
      (growAux fuel L rnds).2.2 = true := by
  induction fuel with
  | zero => intro L rnds _ h1 _; omega
  | succ f ih =>
      intro L rnds hms _ hle
      rw [growAux_ok_succ]
      by_cases hh : headroom (L.step (rnds L.iteration)) = true
      · rw [if_pos hh]
        have hlt : L.iteration + 1 < L.max_steps := by
          by_contra hc
          push_neg at hc
          have : headroom (L.step (rnds L.iteration)) = false := by
            unfold headroom
            rw [if_pos]
            constructor
            · rw [step_max_steps]; exact hms
            · rw [step_max_steps, step_iteration]; omega
          rw [this] at hh
          exact Bool.false_ne_true hh
        refine ih (L.step (rnds L.iteration)) rnds ?_ ?_ ?_
        · rw [step_max_steps]; exact hms
        · omega
        · rw [step_max_steps, step_iteration]; omega
      · rw [if_neg hh]

theorem growAux_iteration_le (fuel : Nat) :
    ∀ (L : CrystalLattice) (rnds : Nat → Int → Bool),
      L.max_steps ≠ 0 → L.iteration < L.max_steps →
      (growAux fuel L rnds).1.iteration ≤ L.max_steps := by
  induction fuel with
  | zero => intro L rnds _ h; simp only [growAux]; omega
  | succ f ih =>
      intro L rnds hms hlt
      rw [growAux_fst_succ]
      by_cases hh : headroom (L.step (rnds L.iteration)) = true
      · rw [if_pos hh]
        have hlt2 : L.iteration + 1 < L.max_steps := by
          by_contra hc
          push_neg at hc
          have : headroom (L.step (rnds L.iteration)) = false := by
            unfold headroom
            rw [if_pos]
            constructor
            · rw [step_max_steps]; exact hms
            · rw [step_max_steps, step_iteration]; omega
          rw [this] at hh
          exact Bool.false_ne_true hh
        have := ih (L.step (rnds L.iteration)) rnds
          (by rw [step_max_steps]; exact hms)
          (by rw [step_max_steps, step_iteration]; omega)
        rw [step_max_steps] at this
        exact this
      · rw [if_neg hh, step_iteration]
        omega

theorem growAux_exit (fuel : Nat) :
    ∀ (L : CrystalLattice) (rnds : Nat → Int → Bool),
      (growAux fuel L rnds).2.2 = true →
      headroom (growAux fuel L rnds).1 = false := by
  induction fuel with
  | zero =>
      intro L rnds h
      exact absurd h (by simp [growAux])
  | succ f ih =>
      intro L rnds h
      rw [growAux_ok_succ] at h
      rw [growAux_fst_succ]
      by_cases hh : headroom (L.step (rnds L.iteration)) = true
      · rw [if_pos hh] at h ⊢
        exact ih _ rnds h
      · rw [if_neg hh]
        revert hh
        cases headroom (L.step (rnds L.iteration)) <;> simp

theorem growAux_preserves (fuel : Nat) :
    ∀ (L : CrystalLattice) (rnds : Nat → Int → Bool),
      (growAux fuel L rnds).1.size = L.size ∧
      (growAux fuel L rnds).1.max_steps = L.max_steps ∧
      (growAux fuel L rnds).1.margin = L.margin := by
  induction fuel with
  | zero => intro L rnds; exact ⟨rfl, rfl, rfl⟩
  | succ f ih =>
      intro L rnds
      rw [growAux_fst_succ]
      by_cases hh : headroom (L.step (rnds L.iteration)) = true
      · rw [if_pos hh]
        exact ih (L.step (rnds L.iteration)) rnds
      · rw [if_neg hh]
        exact ⟨rfl, rfl, rfl⟩

/-! ### Claim C3: the radius march -/

/-- The ray cell at distance `r` is a gap: neither attached nor boundary. -/
def ray_gap (L : CrystalLattice) (sinA cosA : ℚ) (r : Nat) : Bool :=
  !((ray_cell L sinA cosA r).attached || (ray_cell L sinA cosA r).boundary)

/-- The while-loop guard `radius < size/2` in integers. -/
theorem radius_guard_iff (s r : Nat) : ((r : ℚ) < (s : ℚ) / 2) ↔ (r < (s + 1) / 2) := by
  rw [lt_div_iff₀ (by norm_num : (0:ℚ) < 2)]
  constructor
  · intro h
    have h2 : ((2 * r : Nat) : ℚ) < (s : ℚ) := by push_cast; linarith
    have h3 : 2 * r < s := by exact_mod_cast h2
    omega
  · intro h
    have h3 : 2 * r < s := by omega
    have h2 : ((2 * r : Nat) : ℚ) < (s : ℚ) := by exact_mod_cast h3
    push_cast at h2
    linarith

/-- The radius loop returns the first gap distance among the distances it
samples, or `round(size/2)` when every sampled cell is attached or
boundary. -/
theorem snowflake_radius_char_aux (L : CrystalLattice) (sinA cosA : ℚ) :
    ∀ (fuel radius : Nat), (L.size + 1) / 2 ≤ radius + fuel →
      snowflake_radius_aux L sinA cosA radius fuel
        = (((List.range' (radius + 1) ((L.size + 1) / 2 - radius)).find?
              (ray_gap L sinA cosA)).map (fun r => (r : Int))).getD
            (pyRound ((L.size : ℚ) / 2)) := by
  intro fuel
  induction fuel with
  | zero =>
      intro radius hle
      have h0 : (L.size + 1) / 2 - radius = 0 := by omega
      rw [h0]
      simp [snowflake_radius_aux]
  | succ f ih =>
      intro radius hle
      show (if (radius : ℚ) < (L.size : ℚ) / 2 then _ else _) = _
      by_cases hr : radius < (L.size + 1) / 2
      · rw [if_pos ((radius_guard_iff L.size radius).mpr hr)]
        have hsplit : (L.size + 1) / 2 - radius = ((L.size + 1) / 2 - (radius + 1)) + 1 := by
          omega
        rw [hsplit, List.range'_succ]
        by_cases hg : ray_gap L sinA cosA (radius + 1) = true
        · rw [List.find?_cons_of_pos _ hg]
          have hcell : ((ray_cell L sinA cosA (radius + 1)).attached
              || (ray_cell L sinA cosA (radius + 1)).boundary) = false := by
            unfold ray_gap at hg
            revert hg
            cases (ray_cell L sinA cosA (radius + 1)).attached
              || (ray_cell L sinA cosA (radius + 1)).boundary <;> simp
          rw [if_neg (by rw [hcell]; exact Bool.false_ne_true)]
          rfl
        · rw [List.find?_cons_of_neg _ hg]
          have hcell : ((ray_cell L sinA cosA (radius + 1)).attached
              || (ray_cell L sinA cosA (radius + 1)).boundary) = true := by
            unfold ray_gap at hg
            revert hg
            cases (ray_cell L sinA cosA (radius + 1)).attached
              || (ray_cell L sinA cosA (radius + 1)).boundary <;> simp
          rw [if_pos hcell]
          exact ih (radius + 1) (by omega)
      · rw [if_neg (fun hc => hr ((radius_guard_iff L.size radius).mp hc))]
        have h0 : (L.size + 1) / 2 - radius = 0 := by omega
        rw [h0]
        rfl

/-- Source `snowflake_radius` equals the first gap distance within the march, or
the clamped half-width. -/
theorem snowflake_radius_char (L : CrystalLattice) (sinA cosA : ℚ) :
    snowflake_radius L sinA cosA
      = (((List.range' 1 ((L.size + 1) / 2)).find? (ray_gap L sinA cosA)).map
          (fun r => (r : Int))).getD (pyRound ((L.size : ℚ) / 2)) := by
  unfold snowflake_radius
  have h := snowflake_radius_char_aux L sinA cosA (L.size + 1) 0 (by omega)
  simpa using h

/-- Claim C3 (amended): marching outward from the grid center, the returned
radius equals the distance of the FIRST cell encountered that is neither
attached nor boundary (not the last attached-or-boundary step before it),
and equals `int(round(size/2))` when no such gap cell is sampled before the
march leaves the half-width. -/
theorem C3_radius_first_gap (L : CrystalLattice) (sinA cosA : ℚ) :
    snowflake_radius L sinA cosA
      = (((List.range' 1 ((L.size + 1) / 2)).find? (ray_gap L sinA cosA)).map
          (fun r => (r : Int))).getD (pyRound ((L.size : ℚ) / 2)) :=
  snowflake_radius_char L sinA cosA

/-- Source `polar_to_xy` at the default 135° angle, on the main diagonal. -/
theorem polar_diag_eq (half d : ℚ) (k : Int)
    (hx1 : (k : ℚ) - 1/2 < half + cos135 * d) (hx2 : half + cos135 * d < (k : ℚ) + 1/2)
    (hy1 : (k : ℚ) - 1/2 < half - sin135 * d) (hy2 : half - sin135 * d < (k : ℚ) + 1/2) :
    polar_to_xy sin135 cos135 half d = (k, k) := by
  unfold polar_to_xy
  rw [pyRound_eq _ k hx1 hx2, pyRound_eq _ k hy1 hy2]

/-- The 8×8 lattice for the C3 counterexample: only the cell (3, 3), sampled by
the ray at distances 1 and 2, is attached; the cell (2, 2) at distance 3 is
the first gap. -/
def L8x : CrystalLattice :=
  { size := 8, iteration := 1, margin := 17/20, max_steps := 0,
    env := defaultEnv, curves := none,
    cells := fun i => if i = 27 then attCellZ else plainCell 0 0 }

/-- Claim C3 counterexample: on `L8x` the march meets attached-or-boundary
cells at distances 1 and 2 and its first gap at distance 3, and
`snowflake_radius` returns 3 — the first gap's distance — not 2, the
distance of the last attached-or-boundary step before the gap. -/
theorem C3_counterexample :
    snowflake_radius L8x sin135 cos135 = 3 ∧
    ray_gap L8x sin135 cos135 3 = true ∧
    ray_gap L8x sin135 cos135 2 = false ∧
    ray_gap L8x sin135 cos135 1 = false ∧
    (3 : Int) ≠ 2 := by
  have hsz : L8x.size = 8 := rfl
  have hg1 : ray_gap L8x sin135 cos135 1 = false := by
    unfold ray_gap ray_cell
    rw [hsz, polar_diag_eq _ _ 3 (by norm_num [cos135]) (by norm_num [cos135])
      (by norm_num [sin135]) (by norm_num [sin135])]
    decide
  have hg2 : ray_gap L8x sin135 cos135 2 = false := by
    unfold ray_gap ray_cell
    rw [hsz, polar_diag_eq _ _ 3 (by norm_num [cos135]) (by norm_num [cos135])
      (by norm_num [sin135]) (by norm_num [sin135])]
    decide
  have hg3 : ray_gap L8x sin135 cos135 3 = true := by
    unfold ray_gap ray_cell
    rw [hsz, polar_diag_eq _ _ 2 (by norm_num [cos135]) (by norm_num [cos135])
      (by norm_num [sin135]) (by norm_num [sin135])]
    decide
  refine ⟨?_, hg3, hg2, hg1, by decide⟩
  rw [snowflake_radius_char]
  have hlist : List.range' 1 ((L8x.size + 1) / 2) = [1, 2, 3, 4] := by decide
  rw [hlist, List.find?_cons_of_neg _ (by rw [hg1]; exact Bool.false_ne_true),
      List.find?_cons_of_neg _ (by rw [hg2]; exact Bool.false_ne_true),
      List.find?_cons_of_pos _ hg3]
  rfl

/-! ### Claim C4: the crop box -/

/-- A freshly constructed 6×6 lattice. -/
def L6init : CrystalLattice := CrystalLattice.init 6 defaultEnv none 0 none

/-- Claim C4 is violated by the code: on a fresh 6×6 lattice with the
default margin, `crop_snowflake` returns the box (-1, 0, 5, 6), whose left
edge -1 lies outside [0, size] × [0, size].  The box mixes the scaled
`half_s` with the *unscaled* `distance` (the computed `distance_s` is never
used). -/
theorem C4_crop_escapes_grid :
    crop_snowflake L6init none = (-1, 0, 5, 6) ∧ ((-1 : ℚ) < 0) := by
  have hsz : L6init.size = 6 := rfl
  have hg1 : ray_gap L6init sin135 cos135 1 = true := by
    unfold ray_gap ray_cell
    rw [hsz, polar_diag_eq _ _ 2 (by norm_num [cos135]) (by norm_num [cos135])
      (by norm_num [sin135]) (by norm_num [sin135])]
    decide
  have hrad : snowflake_radius L6init sin135 cos135 = 1 := by
    rw [snowflake_radius_char]
    have hlist : List.range' 1 ((L6init.size + 1) / 2) = [1, 2, 3] := by decide
    rw [hlist, List.find?_cons_of_pos _ hg1]
    rfl
  refine ⟨?_, by norm_num⟩
  simp only [crop_snowflake]
  rw [hrad, hsz]
  have hscale1 : scale (((1 : ℤ) : ℚ)) = 1 := by
    unfold scale
    exact pyRound_eq _ 1 (by norm_num [X_SCALE_FACTOR]) (by norm_num [X_SCALE_FACTOR])
  have hscaleh : scale (((6 : ℕ) : ℚ) / 2) = 2 := by
    unfold scale
    exact pyRound_eq _ 2 (by norm_num [X_SCALE_FACTOR]) (by norm_num [X_SCALE_FACTOR])
  rw [hscale1, hscaleh]
  have hmin : min (((1 : ℤ) : ℚ) + 15) (((6 : ℕ) : ℚ) / 2) = 3 := by
    norm_num
  rw [hmin]
  norm_num [Prod.ext_iff]

/-- Claim C10: the lattice's iteration counter starts at 1 and `step()`
increments it before calling `Environment.step`; hence, for every grow run
from a fresh lattice that exits having reached `max_steps = N`, the indices
passed to `Environment.step` are exactly 2, 3, ..., N (so index N itself is
used, and 0 and 1 never are). -/
theorem C10_env_indices (size maxs : Nat) (margin : Option ℚ) (env : CrystalEnvironment)
    (curves : Option (Nat → CurveRow)) (rnds : Nat → Int → Bool) (fuel : Nat)
    (_hok : (growAux fuel (CrystalLattice.init size env curves maxs margin) rnds).2.2 = true)
    (hN : (growAux fuel (CrystalLattice.init size env curves maxs margin) rnds).1.iteration
            = maxs) :
    (CrystalLattice.init size env curves maxs margin).iteration = 1 ∧
    (growAux fuel (CrystalLattice.init size env curves maxs margin) rnds).2.1
      = List.range' 2 (maxs - 1) ∧
    ∀ x ∈ (growAux fuel (CrystalLattice.init size env curves maxs margin) rnds).2.1,
      2 ≤ x := by
  have htr := growAux_trace fuel (CrystalLattice.init size env curves maxs margin) rnds
  have hit : (CrystalLattice.init size env curves maxs margin).iteration = 1 := rfl
  rw [hit, hN] at htr
  refine ⟨hit, htr, ?_⟩
  rw [htr]
  intro x hx
  have := List.mem_range'_1.mp hx
  omega

/-- Witness for C10: a fresh 4×4 lattice with `max_steps = 2` completes
after one step with iteration 2, and the only index passed to
`Environment.step` is 2. -/
theorem C10_env_indices_witness :
    (growAux 5 (CrystalLattice.init 4 defaultEnv none 2 none) rstream).2.2 = true ∧
    (growAux 5 (CrystalLattice.init 4 defaultEnv none 2 none) rstream).1.iteration = 2 ∧
    (growAux 5 (CrystalLattice.init 4 defaultEnv none 2 none) rstream).2.1
      = List.range' 2 1 := by
  have h := C10_env_indices 4 2 none defaultEnv none rstream 5 (by decide) (by decide)
  exact ⟨by decide, by decide, h.2.1⟩

/-! ### Claim C9: termination of grow() -/

/-- A fresh 50×50 lattice with max_steps = 200 and default margin 0.85. -/
def L9init : CrystalLattice := CrystalLattice.init 50 defaultEnv none 200 none

/-- Claim C9 (amended): `grow()` on a 50×50, max_steps-200 lattice
terminates within 200 iterations (199 loop passes suffice for every noise
oracle), and at exit either the iteration counter equals max_steps or the
measured radius exceeds the cutoff `int(round(margin * size/2))` = 21 (the
loop exits when the radius EXCEEDS the cutoff, not while it stays below
it). -/
theorem C9_termination (rnds : Nat → Int → Bool) :
    (growAux 199 L9init rnds).2.2 = true ∧
    (growAux 199 L9init rnds).1.iteration ≤ 200 ∧
    ((growAux 199 L9init rnds).1.iteration = 200 ∨
      21 < snowflake_radius (growAux 199 L9init rnds).1 sin135 cos135) := by
  have hms : L9init.max_steps = 200 := rfl
  have hit : L9init.iteration = 1 := rfl
  have hok := growAux_completes 199 L9init rnds (by rw [hms]; omega) (by omega)
    (by rw [hms, hit])
  have hle := growAux_iteration_le 199 L9init rnds (by rw [hms]; omega)
    (by rw [hms, hit]; omega)
  rw [hms] at hle
  have hexit := growAux_exit 199 L9init rnds hok
  refine ⟨hok, hle, ?_⟩
  simp only [headroom] at hexit
  split_ifs at hexit with h1 h2
  · left
    have hpre := (growAux_preserves 199 L9init rnds).2.1
    rw [hpre, hms] at h1
    omega
  · right
    have hprem := (growAux_preserves 199 L9init rnds).2.2
    have hpres := (growAux_preserves 199 L9init rnds).1
    rw [hprem, hpres] at h2
    have hm : L9init.margin = 17/20 := rfl
    have hs : L9init.size = 50 := rfl
    rw [hm, hs] at h2
    rw [pyRound_eq _ 21 (by norm_num) (by norm_num)] at h2
    exact h2

/-- The attached diagonal for the C9 counterexample: flat indices 51k for
k = 7, ..., 24, i.e. the cells (k, k) sampled by the default 135° ray at
distances 1 through 25. -/
def diagIdx : List Int :=
  [357, 408, 459, 510, 561, 612, 663, 714, 765, 816, 867, 918, 969,
   1020, 1071, 1122, 1173, 1224]

/-- A 50×50 lattice with max_steps = 200 whose crystal already spans the
whole measured ray: `grow()` exits through the radius test after a single
step, with iteration 2. -/
def L9x : CrystalLattice :=
  { size := 50, iteration := 1, margin := 17/20, max_steps := 200,
    env := defaultEnv, curves := none,
    cells := fun i => if i ∈ diagIdx then attCellZ else plainCell 0 0 }


/-- Claim C9 counterexample: on `L9x` (size 50, max_steps 200) the grow loop
terminates after one step with iteration 2 and measured radius 25, so
neither disjunct of the claim holds: the radius is not at most
margin × size/2 = 21.25, and the iteration counter is not max_steps. -/
theorem C9_counterexample :
    (growAux 199 L9x rstream).2.2 = true ∧
    (growAux 199 L9x rstream).1.iteration = 2 ∧
    snowflake_radius (growAux 199 L9x rstream).1 sin135 cos135 = 25 ∧
    ¬(((snowflake_radius (growAux 199 L9x rstream).1 sin135 cos135 : ℤ) : ℚ)
        ≤ L9x.margin * ((L9x.size : ℚ) / 2)
      ∨ (growAux 199 L9x rstream).1.iteration = L9x.max_steps) := by
  have hs9 : L9x.size = 50 := rfl
  have hm9 : L9x.margin = 17/20 := rfl
  have hms9 : L9x.max_steps = 200 := rfl
  have hit9 : L9x.iteration = 1 := rfl
  have hg1 : ray_gap (L9x.step (rstream L9x.iteration)) sin135 cos135 1 = false := by
    unfold ray_gap ray_cell
    rw [step_size, hs9,
        polar_diag_eq _ _ 24 (by norm_num [cos135]) (by norm_num [cos135])
          (by norm_num [sin135]) (by norm_num [sin135]),
        show cell_index 50 (24, 24) = 1224 from by decide,
        step_cells_frozen L9x (rstream L9x.iteration) 1224 (by decide)]
    decide
  have hg2 : ray_gap (L9x.step (rstream L9x.iteration)) sin135 cos135 2 = false := by
    unfold ray_gap ray_cell
    rw [step_size, hs9,
        polar_diag_eq _ _ 24 (by norm_num [cos135]) (by norm_num [cos135])
          (by norm_num [sin135]) (by norm_num [sin135]),
        show cell_index 50 (24, 24) = 1224 from by decide,
        step_cells_frozen L9x (rstream L9x.iteration) 1224 (by decide)]
    decide
  have hg3 : ray_gap (L9x.step (rstream L9x.iteration)) sin135 cos135 3 = false := by
    unfold ray_gap ray_cell
    rw [step_size, hs9,
        polar_diag_eq _ _ 23 (by norm_num [cos135]) (by norm_num [cos135])
          (by norm_num [sin135]) (by norm_num [sin135]),
        show cell_index 50 (23, 23) = 1173 from by decide,
        step_cells_frozen L9x (rstream L9x.iteration) 1173 (by decide)]
    decide
  have hg4 : ray_gap (L9x.step (rstream L9x.iteration)) sin135 cos135 4 = false := by
    unfold ray_gap ray_cell
    rw [step_size, hs9,
        polar_diag_eq _ _ 22 (by norm_num [cos135]) (by norm_num [cos135])
          (by norm_num [sin135]) (by norm_num [sin135]),
        show cell_index 50 (22, 22) = 1122 from by decide,
        step_cells_frozen L9x (rstream L9x.iteration) 1122 (by decide)]
    decide
  have hg5 : ray_gap (L9x.step (rstream L9x.iteration)) sin135 cos135 5 = false := by
    unfold ray_gap ray_cell
    rw [step_size, hs9,
        polar_diag_eq _ _ 21 (by norm_num [cos135]) (by norm_num [cos135])
          (by norm_num [sin135]) (by norm_num [sin135]),
        show cell_index 50 (21, 21) = 1071 from by decide,
        step_cells_frozen L9x (rstream L9x.iteration) 1071 (by decide)]
    decide
  have hg6 : ray_gap (L9x.step (rstream L9x.iteration)) sin135 cos135 6 = false := by
    unfold ray_gap ray_cell
    rw [step_size, hs9,
        polar_diag_eq _ _ 21 (by norm_num [cos135]) (by norm_num [cos135])
          (by norm_num [sin135]) (by norm_num [sin135]),
        show cell_index 50 (21, 21) = 1071 from by decide,
        step_cells_frozen L9x (rstream L9x.iteration) 1071 (by decide)]
    decide
  have hg7 : ray_gap (L9x.step (rstream L9x.iteration)) sin135 cos135 7 = false := by
    unfold ray_gap ray_cell
    rw [step_size, hs9,
        polar_diag_eq _ _ 20 (by norm_num [cos135]) (by norm_num [cos135])
          (by norm_num [sin135]) (by norm_num [sin135]),
        show cell_index 50 (20, 20) = 1020 from by decide,
        step_cells_frozen L9x (rstream L9x.iteration) 1020 (by decide)]
    decide
  have hg8 : ray_gap (L9x.step (rstream L9x.iteration)) sin135 cos135 8 = false := by
    unfold ray_gap ray_cell
    rw [step_size, hs9,
        polar_diag_eq _ _ 19 (by norm_num [cos135]) (by norm_num [cos135])
          (by norm_num [sin135]) (by norm_num [sin135]),
        show cell_index 50 (19, 19) = 969 from by decide,
        step_cells_frozen L9x (rstream L9x.iteration) 969 (by decide)]
    decide
  have hg9 : ray_gap (L9x.step (rstream L9x.iteration)) sin135 cos135 9 = false := by
    unfold ray_gap ray_cell
    rw [step_size, hs9,
        polar_diag_eq _ _ 19 (by norm_num [cos135]) (by norm_num [cos135])
          (by norm_num [sin135]) (by norm_num [sin135]),
        show cell_index 50 (19, 19) = 969 from by decide,
        step_cells_frozen L9x (rstream L9x.iteration) 969 (by decide)]
    decide
  have hg10 : ray_gap (L9x.step (rstream L9x.iteration)) sin135 cos135 10 = false := by
    unfold ray_gap ray_cell
    rw [step_size, hs9,
        polar_diag_eq _ _ 18 (by norm_num [cos135]) (by norm_num [cos135])
          (by norm_num [sin135]) (by norm_num [sin135]),
        show cell_index 50 (18, 18) = 918 from by decide,
        step_cells_frozen L9x (rstream L9x.iteration) 918 (by decide)]
    decide
  have hg11 : ray_gap (L9x.step (rstream L9x.iteration)) sin135 cos135 11 = false := by
    unfold ray_gap ray_cell
    rw [step_size, hs9,
        polar_diag_eq _ _ 17 (by norm_num [cos135]) (by norm_num [cos135])
          (by norm_num [sin135]) (by norm_num [sin135]),
        show cell_index 50 (17, 17) = 867 from by decide,
        step_cells_frozen L9x (rstream L9x.iteration) 867 (by decide)]
    decide
  have hg12 : ray_gap (L9x.step (rstream L9x.iteration)) sin135 cos135 12 = false := by
    unfold ray_gap ray_cell
    rw [step_size, hs9,
        polar_diag_eq _ _ 17 (by norm_num [cos135]) (by norm_num [cos135])
          (by norm_num [sin135]) (by norm_num [sin135]),
        show cell_index 50 (17, 17) = 867 from by decide,
        step_cells_frozen L9x (rstream L9x.iteration) 867 (by decide)]
    decide
  have hg13 : ray_gap (L9x.step (rstream L9x.iteration)) sin135 cos135 13 = false := by
    unfold ray_gap ray_cell
    rw [step_size, hs9,
        polar_diag_eq _ _ 16 (by norm_num [cos135]) (by norm_num [cos135])
          (by norm_num [sin135]) (by norm_num [sin135]),
        show cell_index 50 (16, 16) = 816 from by decide,
        step_cells_frozen L9x (rstream L9x.iteration) 816 (by decide)]
    decide
  have hg14 : ray_gap (L9x.step (rstream L9x.iteration)) sin135 cos135 14 = false := by
    unfold ray_gap ray_cell
    rw [step_size, hs9,
        polar_diag_eq _ _ 15 (by norm_num [cos135]) (by norm_num [cos135])
          (by norm_num [sin135]) (by norm_num [sin135]),
        show cell_index 50 (15, 15) = 765 from by decide,
        step_cells_frozen L9x (rstream L9x.iteration) 765 (by decide)]
    decide
  have hg15 : ray_gap (L9x.step (rstream L9x.iteration)) sin135 cos135 15 = false := by
    unfold ray_gap ray_cell
    rw [step_size, hs9,
        polar_diag_eq _ _ 14 (by norm_num [cos135]) (by norm_num [cos135])
          (by norm_num [sin135]) (by norm_num [sin135]),
        show cell_index 50 (14, 14) = 714 from by decide,
        step_cells_frozen L9x (rstream L9x.iteration) 714 (by decide)]
    decide
  have hg16 : ray_gap (L9x.step (rstream L9x.iteration)) sin135 cos135 16 = false := by
    unfold ray_gap ray_cell
    rw [step_size, hs9,
        polar_diag_eq _ _ 14 (by norm_num [cos135]) (by norm_num [cos135])
          (by norm_num [sin135]) (by norm_num [sin135]),
        show cell_index 50 (14, 14) = 714 from by decide,
        step_cells_frozen L9x (rstream L9x.iteration) 714 (by decide)]
    decide
  have hg17 : ray_gap (L9x.step (rstream L9x.iteration)) sin135 cos135 17 = false := by
    unfold ray_gap ray_cell
    rw [step_size, hs9,
        polar_diag_eq _ _ 13 (by norm_num [cos135]) (by norm_num [cos135])
          (by norm_num [sin135]) (by norm_num [sin135]),
        show cell_index 50 (13, 13) = 663 from by decide,
        step_cells_frozen L9x (rstream L9x.iteration) 663 (by decide)]
    decide
  have hg18 : ray_gap (L9x.step (rstream L9x.iteration)) sin135 cos135 18 = false := by
    unfold ray_gap ray_cell
    rw [step_size, hs9,
        polar_diag_eq _ _ 12 (by norm_num [cos135]) (by norm_num [cos135])
          (by norm_num [sin135]) (by norm_num [sin135]),
        show cell_index 50 (12, 12) = 612 from by decide,
        step_cells_frozen L9x (rstream L9x.iteration) 612 (by decide)]
    decide
  have hg19 : ray_gap (L9x.step (rstream L9x.iteration)) sin135 cos135 19 = false := by
    unfold ray_gap ray_cell
    rw [step_size, hs9,
        polar_diag_eq _ _ 12 (by norm_num [cos135]) (by norm_num [cos135])
          (by norm_num [sin135]) (by norm_num [sin135]),
        show cell_index 50 (12, 12) = 612 from by decide,
        step_cells_frozen L9x (rstream L9x.iteration) 612 (by decide)]
    decide
  have hg20 : ray_gap (L9x.step (rstream L9x.iteration)) sin135 cos135 20 = false := by
    unfold ray_gap ray_cell
    rw [step_size, hs9,
        polar_diag_eq _ _ 11 (by norm_num [cos135]) (by norm_num [cos135])
          (by norm_num [sin135]) (by norm_num [sin135]),
        show cell_index 50 (11, 11) = 561 from by decide,
        step_cells_frozen L9x (rstream L9x.iteration) 561 (by decide)]
    decide
  have hg21 : ray_gap (L9x.step (rstream L9x.iteration)) sin135 cos135 21 = false := by
    unfold ray_gap ray_cell
    rw [step_size, hs9,
        polar_diag_eq _ _ 10 (by norm_num [cos135]) (by norm_num [cos135])
          (by norm_num [sin135]) (by norm_num [sin135]),
        show cell_index 50 (10, 10) = 510 from by decide,
        step_cells_frozen L9x (rstream L9x.iteration) 510 (by decide)]
    decide
  have hg22 : ray_gap (L9x.step (rstream L9x.iteration)) sin135 cos135 22 = false := by
    unfold ray_gap ray_cell
    rw [step_size, hs9,
        polar_diag_eq _ _ 9 (by norm_num [cos135]) (by norm_num [cos135])
          (by norm_num [sin135]) (by norm_num [sin135]),
        show cell_index 50 (9, 9) = 459 from by decide,
        step_cells_frozen L9x (rstream L9x.iteration) 459 (by decide)]
    decide
  have hg23 : ray_gap (L9x.step (rstream L9x.iteration)) sin135 cos135 23 = false := by
    unfold ray_gap ray_cell
    rw [step_size, hs9,
        polar_diag_eq _ _ 9 (by norm_num [cos135]) (by norm_num [cos135])
          (by norm_num [sin135]) (by norm_num [sin135]),
        show cell_index 50 (9, 9) = 459 from by decide,
        step_cells_frozen L9x (rstream L9x.iteration) 459 (by decide)]
    decide
  have hg24 : ray_gap (L9x.step (rstream L9x.iteration)) sin135 cos135 24 = false := by
    unfold ray_gap ray_cell
    rw [step_size, hs9,
        polar_diag_eq _ _ 8 (by norm_num [cos135]) (by norm_num [cos135])
          (by norm_num [sin135]) (by norm_num [sin135]),
        show cell_index 50 (8, 8) = 408 from by decide,
        step_cells_frozen L9x (rstream L9x.iteration) 408 (by decide)]
    decide
  have hg25 : ray_gap (L9x.step (rstream L9x.iteration)) sin135 cos135 25 = false := by
    unfold ray_gap ray_cell
    rw [step_size, hs9,
        polar_diag_eq _ _ 7 (by norm_num [cos135]) (by norm_num [cos135])
          (by norm_num [sin135]) (by norm_num [sin135]),
        show cell_index 50 (7, 7) = 357 from by decide,
        step_cells_frozen L9x (rstream L9x.iteration) 357 (by decide)]
    decide
  have hrad : snowflake_radius (L9x.step (rstream L9x.iteration)) sin135 cos135 = 25 := by
    rw [snowflake_radius_char, step_size, hs9]
    have hlist : List.range' 1 ((50 + 1) / 2)
        = [1, 2, 3, 4, 5, 6, 7, 8, 9, 10, 11, 12, 13, 14, 15, 16, 17, 18, 19, 20,
           21, 22, 23, 24, 25] := by decide
    have hall : ∀ x ∈ [1, 2, 3, 4, 5, 6, 7, 8, 9, 10, 11, 12, 13, 14, 15, 16, 17,
        18, 19, 20, 21, 22, 23, 24, 25],
        ¬(ray_gap (L9x.step (rstream L9x.iteration)) sin135 cos135 x = true) := by
      intro x hx hgap
      fin_cases hx <;> simp_all
    rw [hlist, List.find?_eq_none.mpr hall]
    exact pyRound_eq _ 25 (by norm_num) (by norm_num)
  have hh : headroom (L9x.step (rstream L9x.iteration)) = false := by
    unfold headroom
    rw [if_neg ?hc1, if_pos ?hc2]
    case hc1 =>
      intro hc
      have hc2 := hc.2
      rw [step_max_steps, step_iteration, hms9, hit9] at hc2
      omega
    case hc2 =>
      rw [step_margin, step_size, hm9, hs9, hrad,
          pyRound_eq _ 21 (by norm_num) (by norm_num)]
      omega
  have h199 : (199 : ℕ) = 198 + 1 := rfl
  have hok : (growAux 199 L9x rstream).2.2 = true := by
    rw [h199, growAux_ok_succ, if_neg (by rw [hh]; exact Bool.false_ne_true)]
  have hfst : (growAux 199 L9x rstream).1 = L9x.step (rstream L9x.iteration) := by
    rw [h199, growAux_fst_succ, if_neg (by rw [hh]; exact Bool.false_ne_true)]
  refine ⟨hok, ?_, ?_, ?_⟩
  · rw [hfst, step_iteration, hit9]
  · rw [hfst]
    exact hrad
  · rw [hfst, hrad, hm9, hs9, hms9, step_iteration, hit9]
    push_neg
    constructor
    · norm_num
    · omega
